import Mathlib

/-!
Shallow embedding of `tar2sqlite.py` from the legi.py repository: the
incremental ingestion engine that loads LEGI tar archives into an SQLite
database.  Tables are modelled as Lean lists, SQL point lookups and scoped
deletes as list operations, and the per-entry control flow of
`process_archive` as an `Except`-valued step function (Python assertion
failures, `IndexError`/`KeyError`/`TypeError` and XML decoding failures are
all `Except.error`, aborting the archive's transaction).

The relational store helpers (`db.one`, `db.insert`, `db.update`, `db.run`,
`db.changes`) come from `utils.connect_db`; they execute the literal SQL
statements of `tar2sqlite.py`, which are modelled here directly on lists.
-/

namespace Legi

/-- A row of one of the four document tables (`articles`, `sections`,
`textes_structs`, `textes_versions`).  Only the columns every ingestion
decision reads or writes are modelled (`id`, `dossier`, `cid`, `mtime`,
lines 142-169 and 291-299 of `tar2sqlite.py`); the kind-specific attribute
columns produced by `scrape_tags` never influence control flow. -/
structure DocRow where
  id : String
  dossier : String
  cid : String
  mtime : Int
deriving DecidableEq, Repr

/-- A row of the `liens` table.  The SQL column `_reversed` is modelled as
`reversed`. -/
structure Lien where
  src_id : String
  dst_cid : Option String
  dst_id : Option String
  dst_titre : Option String
  typelien : Option String
  reversed : Bool
deriving DecidableEq, Repr

/-- A row of the `sommaires` table.  The SQL column `_source` is modelled as
`source`.  The `textes_structs` insert (lines 237-245) supplies neither
`parent` nor `num`, hence both are `Option`. -/
structure Sommaire where
  cid : String
  parent : Option String
  element : Option String
  debut : Option String
  fin : Option String
  etat : Option String
  num : Option String
  position : Nat
  source : String
deriving DecidableEq, Repr

/-- The four document tables. -/
inductive Table where
  | articles | sections | textes_structs | textes_versions
deriving DecidableEq, Repr

/-- The database state: four document tables, the two derived-row tables and
the `db_meta` watermark row (`key = 'last_update'`). -/
structure DB where
  articles : List DocRow
  sections : List DocRow
  textes_structs : List DocRow
  textes_versions : List DocRow
  liens : List Lien
  sommaires : List Sommaire
  lastUpdate : Option String
deriving DecidableEq, Repr

def DB.rows (db : DB) : Table → List DocRow
  | .articles => db.articles
  | .sections => db.sections
  | .textes_structs => db.textes_structs
  | .textes_versions => db.textes_versions

def DB.setRows (db : DB) : Table → List DocRow → DB
  | .articles, rs => { db with articles := rs }
  | .sections, rs => { db with sections := rs }
  | .textes_structs, rs => { db with textes_structs := rs }
  | .textes_versions, rs => { db with textes_versions := rs }

/-- Attributes of a `<LIEN>` element inside a `LIENS` block (every `attr`
read may be absent, hence `Option`); `text` is the element's text node. -/
structure LienElem where
  typelien : Option String
  sens : Option String
  id : Option String
  cidtexte : Option String
  text : Option String
deriving DecidableEq, Repr

/-- Attributes of a `<LIEN>` child of `STRUCTURE_TA` (sections) or `STRUCT`
(textes_structs). -/
structure TocElem where
  id : Option String
  debut : Option String
  fin : Option String
  etat : Option String
  num : Option String
deriving DecidableEq, Repr

/-- A decoded XML document, restricted to the values `process_archive`
dereferences: the embedded document id, the `NATURE` text (not read for
`SECTION_TA`), the enclosing chronicle id (`CONTEXTE/TEXTE@cid` for articles
and sections, `META_TEXTE_CHRONICLE/CID` for texte versions), the `LIENS`
children (`none` when the `LIENS` element is absent) and the ordered
structural children.  Field values produced by `scrape_tags` are not
modelled; they never influence control flow. -/
inductive Content where
  | article (docId : Option String) (nature : Option String)
      (contexteCid : Option String) (liens : Option (List LienElem))
  | section_ta (docId : Option String) (contexteCid : Option String)
      (structureTa : List TocElem)
  | textelr (docId : Option String) (nature : Option String)
      (struct : List TocElem)
  | texte_version (docId : Option String) (nature : Option String)
      (chronicleCid : Option String) (liens : Option (List LienElem))
deriving DecidableEq, Repr

/-- Which branch of the per-entry state machine (lines 148-169) an accepted
or rejected entry took: `skipped` is the equal-mtime `continue` (line 156),
`discarded` the old-file `continue` (line 161), `updated`/`inserted` the two
arms of lines 295-299. -/
inductive Outcome where
  | skipped | discarded | updated | inserted
deriving DecidableEq, Repr

/-- Result of processing one document entry: the database, the old-files log
(one path per line, as printed to `old_files_log`), the increment to
`old_files_count`, and the branch taken. -/
structure StepResult where
  db : DB
  log : List String
  oldInc : Nat
  outcome : Outcome
deriving DecidableEq, Repr

/-- The eleven `TYPELIEN_MAP` pairs of lines 101-113. -/
def TYPELIEN_PAIRS : List (String × String) :=
  [("ABROGATION", "ABROGE"), ("ANNULATION", "ANNULE"),
   ("CODIFICATION", "CODIFIE"), ("CONCORDANCE", "CONCORDE"),
   ("CREATION", "CREE"), ("DEPLACE", "DEPLACEMENT"),
   ("DISJOINT", "DISJONCTION"), ("MODIFICATION", "MODIFIE"),
   ("PEREMPTION", "PERIME"), ("RATIFICATION", "RATIFIE"),
   ("TRANSFERE", "TRANSFERT")]

/-- `TYPELIEN_MAP` after line 114 makes it symmetric. -/
def TYPELIEN_MAP : List (String × String) :=
  TYPELIEN_PAIRS ++ TYPELIEN_PAIRS.map (fun p => (p.2, p.1))

/-- `TYPELIEN_MAP.get(typelien, typelien + '_R')` (line 276). -/
def typelien_subst (t : String) : String :=
  (TYPELIEN_MAP.lookup t).getD (t ++ "_R")

/-- `SOUS_DOSSIER_MAP` (lines 94-99). -/
def sous_dossier : Table → String
  | .articles => "article"
  | .sections => "section_ta"
  | .textes_structs => "texte/struct"
  | .textes_versions => "texte/version"

/-- Modelled from the spec: `utils.reconstruct_path` is imported from
`utils`, which is not under `src/`.  Per spec section 4.3 it rebuilds the old
logical path of a relocated document from its stored `dossier`, `cid`,
sous-dossier and `id`. -/
def reconstruct_path (dossier cid sdos tid : String) : String :=
  "legi/global/" ++ dossier ++ "/" ++ cid ++ "/" ++ sdos ++ "/" ++ tid ++ ".xml"

/-- `get_table` (lines 121-125 and reused by `suppress`): the 4-letter kind
code at `parts[-1][4:8]` selects the table, `TEXT` disambiguating through
`parts[13]`.  A code outside `TABLES_MAP` is a `KeyError` and an invalid
`parts[13]` yields a nonexistent table name; both are fatal, modelled as
`none`. -/
def get_table (parts : List String) : Option Table :=
  match parts.getLast? with
  | none => none
  | some last =>
    let code := (last.drop 4).take 4
    if code = "ARTI" then some .articles
    else if code = "SCTA" then some .sections
    else if code = "TEXT" then
      match parts.get? 13 with
      | some "struct" => some .textes_structs
      | some "version" => some .textes_versions
      | _ => none
    else none

/-- Lines 139-141: drop the leading directory when the path has an extra
component above `legi/`. -/
def strip_parts (parts : List String) : List String :=
  if parts.get? 1 = some "legi" then parts.drop 1 else parts

/-- The SQL predicate `src_id = ? AND NOT _reversed OR dst_id = ? AND
_reversed` (lines 262-264 and 56-58) selecting the link rows owned by a
document. -/
def lien_owned (tid : String) (r : Lien) : Bool :=
  (r.src_id == tid && !r.reversed) || (r.dst_id == some tid && r.reversed)

/-- The SQL predicate `cid = ? AND parent = ? AND _source =
'section_ta_liens'` (lines 209-213 and 62-67) selecting the toc rows owned
by a section under a given chronicle id. -/
def section_toc_scope (cid tid : String) (s : Sommaire) : Bool :=
  s.cid == cid && s.parent == some tid && s.source == "section_ta_liens"

/-- The SQL predicate `cid = ? AND _source = 'struct/' || ?` (lines 231-235
and 70-74) selecting the toc rows owned by a texte structure under a given
chronicle id. -/
def struct_toc_scope (cid tid : String) (s : Sommaire) : Bool :=
  s.cid == cid && s.source == "struct/" ++ tid

/-- Translate one `<LIEN>` element into a `liens` row (lines 269-289).  For
`sens == 'cible'` the endpoints are swapped, `dst_cid`/`dst_titre` are set to
the empty string, `_reversed` is set, and `typelien` goes through
`TYPELIEN_MAP` with fallback `typelien + '_R'`; `assert dst_id` fails on an
absent or empty id, and a `None` typelien makes the fallback expression a
`TypeError`.  Otherwise the row is stored as observed. -/
def build_lien (tid : String) (l : LienElem) : Except String Lien :=
  if l.sens = some "cible" then
    match l.id with
    | none => .error "assert dst_id"
    | some d =>
      if d = "" then .error "assert dst_id"
      else
        match l.typelien with
        | none => .error "TypeError: typelien is None"
        | some t => .ok ⟨d, some "", some tid, some "", some (typelien_subst t), true⟩
  else
    .ok ⟨tid, l.cidtexte, l.id, l.text, l.typelien, false⟩

/-- All rows extracted from a `LIENS` block (`none` models an absent `LIENS`
element, line 268). -/
def extract_liens (tid : String) (ls : Option (List LienElem)) :
    Except String (List Lien) :=
  match ls with
  | none => .ok []
  | some ls => ls.mapM (build_lien tid)

/-- The `sommaires` rows inserted for a `SECTION_TA` (lines 214-225):
`position` is the 0-based index in document order. -/
def build_section_toc (cid sid : String) (children : List TocElem) :
    List Sommaire :=
  children.enum.map fun p =>
    ⟨cid, some sid, p.2.id, p.2.debut, p.2.fin, p.2.etat, p.2.num, p.1,
     "section_ta_liens"⟩

/-- The `sommaires` rows inserted for a `TEXTELR` (lines 236-245): no
`parent`, no `num`, `_source = 'struct/' + id`. -/
def build_struct_toc (cid tid : String) (children : List TocElem) :
    List Sommaire :=
  children.enum.map fun p =>
    ⟨cid, none, p.2.id, p.2.debut, p.2.fin, p.2.etat, none, p.1,
     "struct/" ++ tid⟩

/-- Lines 291-299: store `dossier`, `cid`, `mtime` into the document row —
`UPDATE ... WHERE id = ?` when a previous row exists, `INSERT` otherwise. -/
def upsert_row (db : DB) (table : Table) (dossier cid tid : String)
    (mtime : Int) (hasPrev : Bool) : DB :=
  if hasPrev then
    db.setRows table ((db.rows table).map fun r =>
      if r.id == tid then { r with dossier := dossier, cid := cid, mtime := mtime }
      else r)
  else
    db.setRows table (db.rows table ++ [⟨tid, dossier, cid, mtime⟩])

/-- Lines 171-299 after the version checks: decode the entry, run the
structural assertions, regenerate the derived rows and upsert the document
row.  `hasPrev` is `prev_row`'s presence; `oldInc`/`log` carry the already
emitted relocation bookkeeping. -/
def update_doc (db : DB) (log : List String) (oldInc : Nat) (table : Table)
    (dossier text_cid text_id : String) (mtime : Int) (hasPrev : Bool)
    (xmlData : Option Content) : Except String StepResult :=
  match xmlData with
  | none => .error "XMLSyntaxError"
  | some content =>
    let outcome : Outcome := if hasPrev then .updated else .inserted
    match content with
    | .article docId nature contexteCid liens =>
      if docId ≠ some text_id then .error "assert: meta ID" else
      if nature ≠ some "Article" then .error "assert: nature" else
      if table ≠ Table.articles then .error "assert: table" else
      if contexteCid ≠ some text_cid then .error "assert: contexte cid" else
        let db1 := if hasPrev then
            { db with liens := db.liens.filter fun r => !(lien_owned text_id r) }
          else db
        match extract_liens text_id liens with
        | .error e => .error e
        | .ok newLiens =>
          let db2 := { db1 with liens := db1.liens ++ newLiens }
          .ok ⟨upsert_row db2 .articles dossier text_cid text_id mtime hasPrev,
               log, oldInc, outcome⟩
    | .section_ta docId contexteCid children =>
      if docId ≠ some text_id then .error "assert: ID" else
      if table ≠ Table.sections then .error "assert: table" else
      if contexteCid ≠ some text_cid then .error "assert: contexte cid" else
        let db1 := if hasPrev then
            { db with sommaires := db.sommaires.filter fun r =>
                !(section_toc_scope text_cid text_id r) }
          else db
        let db2 := { db1 with
          sommaires := db1.sommaires ++ build_section_toc text_cid text_id children }
        .ok ⟨upsert_row db2 .sections dossier text_cid text_id mtime hasPrev,
             log, oldInc, outcome⟩
    | .textelr docId _nature children =>
      if docId ≠ some text_id then .error "assert: meta ID" else
      if table ≠ Table.textes_structs then .error "assert: table" else
        let db1 := if hasPrev then
            { db with sommaires := db.sommaires.filter fun r =>
                !(struct_toc_scope text_cid text_id r) }
          else db
        let db2 := { db1 with
          sommaires := db1.sommaires ++ build_struct_toc text_cid text_id children }
        .ok ⟨upsert_row db2 .textes_structs dossier text_cid text_id mtime hasPrev,
             log, oldInc, outcome⟩
    | .texte_version docId _nature chronicleCid liens =>
      if docId ≠ some text_id then .error "assert: meta ID" else
      if table ≠ Table.textes_versions then .error "assert: table" else
      if chronicleCid ≠ some text_cid then .error "assert: chronicle CID" else
        let db1 := if hasPrev then
            { db with liens := db.liens.filter fun r => !(lien_owned text_id r) }
          else db
        match extract_liens text_id liens with
        | .error e => .error e
        | .ok newLiens =>
          let db2 := { db1 with liens := db1.liens ++ newLiens }
          .ok ⟨upsert_row db2 .textes_versions dossier text_cid text_id mtime hasPrev,
               log, oldInc, outcome⟩

/-- Lines 132-299: ingest one document entry.  The path yields `dossier`
(`parts[3]`), `text_cid` (`parts[11]`) and `text_id` (`parts[-1][:-4]`); the
stored row with that id (if any) drives the version state machine: an equal
mtime is skipped outright, a changed dossier/cid with an older candidate is
discarded and the candidate's path logged, a changed dossier/cid with a newer
candidate logs the reconstructed previous path and proceeds, and everything
else proceeds to `update_doc`. -/
def process_doc (db : DB) (log : List String) (pathname : List String)
    (mtime : Int) (xmlData : Option Content) : Except String StepResult :=
  let parts := strip_parts pathname
  match parts.get? 3, parts.get? 11, parts.getLast? with
  | some dossier, some text_cid, some last =>
    let text_id := last.dropRight 4
    match get_table parts with
    | none => .error "KeyError: table"
    | some table =>
      match (db.rows table).find? (fun r => r.id == text_id) with
      | some prev =>
        if prev.mtime = mtime then
          .ok ⟨db, log, 0, .skipped⟩
        else if prev.dossier ≠ dossier ∨ prev.cid ≠ text_cid then
          if prev.mtime > mtime then
            .ok ⟨db, log ++ [String.intercalate "/" parts], 1, .discarded⟩
          else
            update_doc db
              (log ++ [reconstruct_path prev.dossier prev.cid (sous_dossier table) text_id])
              1 table dossier text_cid text_id mtime true xmlData
        else
          update_doc db log 0 table dossier text_cid text_id mtime true xmlData
      | none =>
        update_doc db log 0 table dossier text_cid text_id mtime false xmlData
  | _, _, _ => .error "IndexError: path"

/-- One archive entry as delivered by the decoder: the pathname split on
`/`, the modification time, and the entry's blocks decoded two ways — as
whitespace-separated text (used only for `liste_suppression_legi.dat`) and
as XML (`none` when the blocks are not a well-formed document). -/
structure Entry where
  pathname : List String
  mtime : Int
  textData : List String
  xmlData : Option Content
deriving DecidableEq, Repr

/-- The state threaded through `process_archive`'s entry loop: the database,
the old-files log, `old_files_count` and the accumulated
`liste_suppression`. -/
structure ArchiveAcc where
  db : DB
  log : List String
  old_files_count : Nat
  liste_suppression : List String
deriving DecidableEq, Repr

/-- Lines 131-141: one iteration of the entry loop — directories (paths
ending in `/`, i.e. an empty last component) are skipped, the suppression
manifest is accumulated, every other entry goes through `process_doc`. -/
def process_entry (acc : ArchiveAcc) (e : Entry) : Except String ArchiveAcc :=
  match e.pathname.getLast? with
  | none => .error "IndexError: empty path"
  | some last =>
    if last = "" then .ok acc
    else if last = "liste_suppression_legi.dat" then
      .ok { acc with liste_suppression := acc.liste_suppression ++ e.textData }
    else
      match process_doc acc.db acc.log e.pathname e.mtime e.xmlData with
      | .error err => .error err
      | .ok r =>
        .ok ⟨r.db, r.log, acc.old_files_count + r.oldInc, acc.liste_suppression⟩

/-- Helper for `split_slash`: accumulate the current component (reversed)
while scanning. -/
def split_slash_aux : List Char → List Char → List String
  | [], acc => [String.mk acc.reverse]
  | c :: rest, acc =>
    if c = '/' then String.mk acc.reverse :: split_slash_aux rest []
    else split_slash_aux rest (c :: acc)

/-- Python's `path.split('/')` (line 39): split on every slash, keeping
empty components — e.g. `"a//b/"` gives `["a", "", "b", ""]` and `""` gives
`[""]`. -/
def split_slash (s : String) : List String :=
  split_slash_aux s.toList []

/-- The SQL predicate `dossier = ? AND cid = ? AND id = ?` (lines 45-50)
matching the document row a deletion-manifest reference names. -/
def doc_match (dossier cid tid : String) (r : DocRow) : Bool :=
  r.dossier == dossier && r.cid == cid && r.id == tid

/-- One reference of the deletion manifest (`suppress`, lines 38-75): the
document row matching the path-derived `dossier`, `cid` and `id` is deleted,
and — only when a row was actually deleted — the owned `liens` rows
(articles, textes_versions) or the scoped `sommaires` rows (sections,
textes_structs) are cascade-deleted.  Returns the updated `deleted`
counter. -/
def suppress_one (db : DB) (deleted : Nat) (path : String) :
    Except String (DB × Nat) :=
  let parts := split_slash path
  if parts.get? 0 ≠ some "legi" then .error "assert: legi" else
  match parts.get? 11, parts.getLast? with
  | some text_cid, some text_id =>
    if text_id.length ≠ 20 then .error "assert: id length" else
    match get_table parts with
    | none => .error "KeyError: table"
    | some table =>
      match parts.get? 3 with
      | none => .error "IndexError"
      | some dossier =>
        let rows := db.rows table
        let kept := rows.filter fun r =>
          !(doc_match dossier text_cid text_id r)
        let changes := rows.length - kept.length
        let db1 := db.setRows table kept
        if changes = 0 then .ok (db1, deleted)
        else
          match table with
          | .articles | .textes_versions =>
            let keptL := db1.liens.filter fun r => !(lien_owned text_id r)
            .ok ({ db1 with liens := keptL },
                 deleted + changes + (db1.liens.length - keptL.length))
          | .sections =>
            let keptS := db1.sommaires.filter fun r =>
              !(section_toc_scope text_cid text_id r)
            .ok ({ db1 with sommaires := keptS },
                 deleted + changes + (db1.sommaires.length - keptS.length))
          | .textes_structs =>
            let keptS := db1.sommaires.filter fun r =>
              !(struct_toc_scope text_cid text_id r)
            .ok ({ db1 with sommaires := keptS },
                 deleted + changes + (db1.sommaires.length - keptS.length))
  | _, _ => .error "IndexError"

/-- `suppress` over the whole manifest. -/
def suppress (db : DB) (liste : List String) : Except String (DB × Nat) :=
  liste.foldlM (fun acc p => suppress_one acc.1 acc.2 p) (db, 0)

/-- `process_archive` (lines 79-304): fold the entry loop, then apply the
accumulated deletion manifest if nonempty.  Returns the database, the
old-files log and `old_files_count`. -/
def process_archive (db : DB) (log : List String) (entries : List Entry) :
    Except String (DB × List String × Nat) :=
  match entries.foldlM process_entry ⟨db, log, 0, []⟩ with
  | .error e => .error e
  | .ok acc =>
    if acc.liste_suppression.isEmpty then
      .ok (acc.db, acc.log, acc.old_files_count)
    else
      match suppress acc.db acc.liste_suppression with
      | .error e => .error e
      | .ok r => .ok (r.1, acc.log, acc.old_files_count)

/-- The suffix of `hay` right after the first occurrence of `needle`, if
any. -/
def sub_after (needle : List Char) : List Char → Option (List Char)
  | [] => if needle.isEmpty then some [] else none
  | c :: rest =>
    if needle.isPrefixOf (c :: rest) then some ((c :: rest).drop needle.length)
    else sub_after needle rest

/-- Membership in `fnmatch.filter(files, '*legi_*.tar.*')` (line 328): the
name contains `legi_` followed (later) by `.tar.`. -/
def fnmatch_legi_tar (name : String) : Bool :=
  match sub_after "legi_".toList name.toList with
  | none => false
  | some rest => (sub_after ".tar.".toList rest).isSome

/-- Consume exactly `n` decimal digits. -/
def take_digits : Nat → List Char → Option (List Char × List Char)
  | 0, s => some ([], s)
  | _ + 1, [] => none
  | n + 1, c :: s =>
    if c.isDigit then (take_digits n s).map (fun p => (c :: p.1, p.2)) else none

/-- Match `_([0-9]{8}-[0-9]{6})\..+` and return the `date` group together
with the already determined `global` flag. -/
def match_date_tail (g : Bool) (s : List Char) : Option (Bool × String) :=
  match s with
  | '_' :: s1 =>
    match take_digits 8 s1 with
    | none => none
    | some (d8, s2) =>
      match s2 with
      | '-' :: s3 =>
        match take_digits 6 s3 with
        | none => none
        | some (d6, s4) =>
          match s4 with
          | '.' :: _ :: _ => some (g, String.mk (d8 ++ '-' :: d6))
          | _ => none
      | _ => none
  | _ => none

/-- After `legi`, the greedy optional `(_global)?` group: try `_global`
first, fall back to the empty group. -/
def match_after_legi (s : List Char) : Option (Bool × String) :=
  match (if "_global".toList.isPrefixOf s then
           match_date_tail true (s.drop 7)
         else none) with
  | some r => some r
  | none => match_date_tail false s

/-- First defined value in a list of options. -/
def first_some {α : Type} : List (Option α) → Option α
  | [] => none
  | o :: t => match o with | some a => some a | none => first_some t

/-- `archive_re.match(archive_name)` for the regex
`(.+_)?legi(_global)?_([0-9]{8}-[0-9]{6})\..+` (line 325): the greedy
optional prefix `(.+_)?` is tried at every `_`-preceded start position for
`legi`, longest first, then with the prefix group absent (start 0); returns
the `global` flag and the `date` group. -/
def parse_archive_name (name : String) : Option (Bool × String) :=
  let s := name.toList
  let starts := ((List.range (s.length + 1)).filter fun p =>
      decide (2 ≤ p) && s.get? (p - 1) == some '_').reverse ++ [0]
  first_some (starts.map fun p =>
    if "legi".toList.isPrefixOf (s.drop p) then
      match_after_legi ((s.drop p).drop 4)
    else none)

/-- An archive file on disk: its filename and decoded entries. -/
structure ArchiveFile where
  name : String
  entries : List Entry
deriving Repr

/-- What `main`'s loop did with one file (observability of the branch
taken). -/
inductive Action where
  | start | not_matched | bad_name | ineligible | applied (date : String)
  | failed
deriving DecidableEq, Repr

/-- The state of `main`'s archive loop: database, old-files log, the
`skipped` counter, whether an exception aborted the run, and the branch the
last step took. -/
structure RunState where
  db : DB
  log : List String
  skipped : Nat
  aborted : Bool
  lastAction : Action
deriving Repr

/-- Modelled from the spec: the transaction scope `with db:` of lines
347-353 comes from `utils.connect_db`, which is not under `src/`.  Per spec
sections 2 and 5, the archive's entire effect — document rows, derived rows
and the watermark write (lines 349-352, `UPDATE` when a watermark row
exists, `INSERT` otherwise, both storing `archive_date` under
`'last_update'`) — commits together, and any error discards all of it. -/
def apply_archive (db : DB) (log : List String) (entries : List Entry)
    (date : String) : Except String (DB × List String) :=
  match process_archive db log entries with
  | .error e => .error e
  | .ok (db', log', _) => .ok ({ db' with lastUpdate := some date }, log')

/-- Lines 328-354: one file of `main`'s loop.  Files not matching the
fnmatch pattern are never listed; names the regex rejects are reported and
passed over; an archive whose kind disagrees with the watermark state
(`bool(last_update) ^ is_delta`) or whose date does not advance the
watermark is counted as skipped; otherwise the archive is applied
transactionally, an error propagating out of the loop (`aborted`). -/
def main_step (s : RunState) (f : ArchiveFile) : RunState :=
  if s.aborted then s
  else if !fnmatch_legi_tar f.name then { s with lastAction := .not_matched }
  else
    match parse_archive_name f.name with
    | none => { s with lastAction := .bad_name }
    | some (isGlobal, date) =>
      let is_delta := !isGlobal
      if xor s.db.lastUpdate.isSome is_delta then
        { s with skipped := s.skipped + 1, lastAction := .ineligible }
      else
        let stale := match s.db.lastUpdate with
          | some lu => decide (date ≤ lu)
          | none => false
        if stale then
          { s with skipped := s.skipped + 1, lastAction := .ineligible }
        else
          match apply_archive s.db s.log f.entries date with
          | .ok (db', log') =>
            { s with db := db', log := log', skipped := 0,
                     lastAction := .applied date }
          | .error _ => { s with aborted := true, lastAction := .failed }

/-- Lines 323-354: the whole run — files considered in ascending filename
order (`sorted(os.listdir(...))`). -/
def main_loop (db : DB) (log : List String) (files : List ArchiveFile) :
    RunState :=
  (files.mergeSort (fun a b => a.name ≤ b.name)).foldl main_step
    ⟨db, log, 0, false, .start⟩

/-! ### Concrete instances used by the verification theorems -/

/-- A sample article id (`LEGI` + `ARTI` + 12 digits, 20 characters). -/
def artId : String := "LEGIARTI000000000001"

/-- A sample archive path for an article entry: `parts[3]` is the dossier
`D1`, `parts[11]` the chronicle id `C1`, `parts[-1][:-4]` the id. -/
def artPath : List String :=
  ["legi", "global", "code_et_TNC", "D1", "LEGI", "TEXT", "00", "00", "00",
   "00", "00", "C1", "article", "LEGIARTI000000000001.xml"]

/-- A decoded article with no `LIENS` block, consistent with `artPath`. -/
def artContent : Content :=
  .article (some artId) (some "Article") (some "C1") none

/-- A store holding that article under dossier `D1`, cid `C1`, mtime 100. -/
def dbSame : DB := ⟨[⟨artId, "D1", "C1", 100⟩], [], [], [], [], [], none⟩

/-- A store holding that article under dossier `D2` (relocated relative to
`artPath`), cid `C1`, mtime 100. -/
def dbMoved : DB := ⟨[⟨artId, "D2", "C1", 100⟩], [], [], [], [], [], none⟩

/-- A sample section id. -/
def sctaId : String := "LEGISCTA000000000001"

/-- A section entry path whose chronicle id (`parts[11]`) is `C2`. -/
def sctaPath : List String :=
  ["legi", "global", "code_et_TNC", "D1", "LEGI", "TEXT", "00", "00", "00",
   "00", "00", "C2", "section_ta", "LEGISCTA000000000001.xml"]

/-- A toc row produced by an earlier version of that section under cid
`C1`. -/
def oldToc : Sommaire :=
  ⟨"C1", some sctaId, some artId, none, none, none, none, 0,
   "section_ta_liens"⟩

/-- A store holding the section under cid `C1` together with the toc row it
produced there. -/
def dbSecOld : DB := ⟨[], [⟨sctaId, "D1", "C1", 100⟩], [], [], [], [oldToc], none⟩

/-- A decoded version of the section relocated to cid `C2`, with an empty
listing. -/
def sctaContentC2 : Content := .section_ta (some sctaId) (some "C2") []

/-- A `liens` row owned by the sample article (outgoing, non-reversed). -/
def lienOld : Lien :=
  ⟨artId, some "CX", some "LEGIARTI000000000090", none, some "CITATION", false⟩

/-- A `liens` row owned by a different article (its target is the sample
article but it is not reversed, so the sample article does not own it). -/
def lienForeign : Lien :=
  ⟨"LEGIARTI000000000091", none, some artId, none, some "CITATION", false⟩

/-- A store holding the sample article with one owned and one foreign link
row. -/
def dbArtLiens : DB :=
  ⟨[⟨artId, "D1", "C1", 100⟩], [], [], [], [lienOld, lienForeign], [], none⟩

/-- A source-side citation element. -/
def lePlain : LienElem :=
  ⟨some "CITATION", none, some "LEGIARTI000000000098", some "C9", some "titre"⟩

/-- A target-side (`sens="cible"`) citation element. -/
def leCible : LienElem :=
  ⟨some "MODIFICATION", some "cible", some "LEGIARTI000000000099", none, none⟩

/-- A decoded article carrying those two citations. -/
def artContentLiens : Content :=
  .article (some artId) (some "Article") (some "C1") (some [lePlain, leCible])

/-- A section entry path whose chronicle id is `C1`. -/
def sctaPathC1 : List String :=
  ["legi", "global", "code_et_TNC", "D1", "LEGI", "TEXT", "00", "00", "00",
   "00", "00", "C1", "section_ta", "LEGISCTA000000000001.xml"]

/-- Two structural children. -/
def tocA : TocElem := ⟨some "LEGIARTI000000000010", none, none, none, none⟩

def tocB : TocElem := ⟨some "LEGIARTI000000000011", none, none, none, none⟩

/-- A toc row of the prior version of the section, with a stale position. -/
def oldTocPos5 : Sommaire :=
  ⟨"C1", some sctaId, some "LEGIARTI000000000002", none, none, none, none, 5,
   "section_ta_liens"⟩

/-- A store holding the section under cid `C1` with the stale toc row. -/
def dbSecC1 : DB :=
  ⟨[], [⟨sctaId, "D1", "C1", 100⟩], [], [], [], [oldTocPos5], none⟩

/-- A decoded section version listing `[tocA, tocB]`. -/
def sctaContentAB : Content := .section_ta (some sctaId) (some "C1") [tocA, tocB]

/-- A sample texte id. -/
def tlrId : String := "LEGITEXT000000000001"

/-- A texte structure entry path (`parts[13] = "struct"`). -/
def tlrPath : List String :=
  ["legi", "global", "code_et_TNC", "D1", "LEGI", "TEXT", "00", "00", "00",
   "00", "00", "CT", "texte", "struct", "LEGITEXT000000000001.xml"]

/-- A stale toc row of the texte structure's prior version. -/
def staleStruct : Sommaire :=
  ⟨"CT", none, some "LEGIARTI000000000003", none, none, none, none, 7,
   "struct/LEGITEXT000000000001"⟩

/-- A store holding the texte structure and its stale toc row. -/
def dbTlr : DB := ⟨[], [], [⟨tlrId, "D1", "CT", 100⟩], [], [], [staleStruct], none⟩

/-- A decoded texte structure listing `[tocA]`. -/
def tlrContent : Content := .textelr (some tlrId) (some "CODE") [tocA]

/-- The empty store, before any archive. -/
def emptyDB : DB := ⟨[], [], [], [], [], [], none⟩

/-- A full-snapshot archive file with no entries. -/
def fileG : ArchiveFile := ⟨"legi_global_20200101-000000.tar.gz", []⟩

/-- A later delta archive file with no entries. -/
def fileD : ArchiveFile := ⟨"legi_20200102-000000.tar.gz", []⟩

/-- The run state at the start of `main`'s loop on the empty store. -/
def runState0 : RunState := ⟨emptyDB, [], 0, false, .start⟩

/-- A store whose watermark is already set. -/
def dbWm : DB := ⟨[], [], [], [], [], [], some "20200101-000000"⟩

/-- A deletion-manifest reference naming the sample article under dossier
`D1`, cid `C1`. -/
def supPath : String :=
  "legi/glob/code/D1/a/b/c/d/e/f/g/C1/article/LEGIARTI000000000001"

/-- The store after applying `supPath` to `dbArtLiens`: the article row and
its owned link row are gone, the foreign link row remains. -/
def dbSupAfter : DB := ⟨[], [], [], [], [lienForeign], [], none⟩

/-! ### Helper lemmas about the embedding -/

theorem DB.rows_setRows_liens (db : DB) (t : Table) (L : List Lien) :
    ({ db with liens := L } : DB).rows t = db.rows t := by
  cases t <;> rfl

theorem DB.rows_setRows_sommaires (db : DB) (t : Table) (S : List Sommaire) :
    ({ db with sommaires := S } : DB).rows t = db.rows t := by
  cases t <;> rfl

theorem DB.sommaires_setRows (db : DB) (t : Table) (rs : List DocRow) :
    (db.setRows t rs).sommaires = db.sommaires := by
  cases t <;> rfl

theorem DB.liens_setRows (db : DB) (t : Table) (rs : List DocRow) :
    (db.setRows t rs).liens = db.liens := by
  cases t <;> rfl

theorem DB.lastUpdate_setRows (db : DB) (t : Table) (rs : List DocRow) :
    (db.setRows t rs).lastUpdate = db.lastUpdate := by
  cases t <;> rfl

theorem DB.setRows_rows_self (db : DB) (t : Table) :
    db.setRows t (db.rows t) = db := by
  cases t <;> rfl

theorem DB.rows_setRows_self (db : DB) (t : Table) (rs : List DocRow) :
    (db.setRows t rs).rows t = rs := by
  cases t <;> rfl

theorem upsert_row_sommaires (db : DB) (t : Table) (dossier cid tid : String)
    (mtime : Int) (hasPrev : Bool) :
    (upsert_row db t dossier cid tid mtime hasPrev).sommaires = db.sommaires := by
  unfold upsert_row
  split <;> exact DB.sommaires_setRows ..

theorem upsert_row_liens (db : DB) (t : Table) (dossier cid tid : String)
    (mtime : Int) (hasPrev : Bool) :
    (upsert_row db t dossier cid tid mtime hasPrev).liens = db.liens := by
  unfold upsert_row
  split <;> exact DB.liens_setRows ..

/-- After the path-derived pieces are fixed, `process_doc` is exactly the
version state machine of lines 148-169 feeding `update_doc`. -/
theorem process_doc_cases (db : DB) (log : List String)
    (pathname : List String) (mtime : Int) (xml : Option Content)
    (dossier cid last : String) (table : Table)
    (h3 : (strip_parts pathname).get? 3 = some dossier)
    (h11 : (strip_parts pathname).get? 11 = some cid)
    (hl : (strip_parts pathname).getLast? = some last)
    (ht : get_table (strip_parts pathname) = some table) :
    process_doc db log pathname mtime xml =
      (match (db.rows table).find? (fun r => r.id == last.dropRight 4) with
       | some prev =>
         if prev.mtime = mtime then .ok ⟨db, log, 0, .skipped⟩
         else if prev.dossier ≠ dossier ∨ prev.cid ≠ cid then
           if prev.mtime > mtime then
             .ok ⟨db, log ++ [String.intercalate "/" (strip_parts pathname)], 1,
                  .discarded⟩
           else
             update_doc db
               (log ++ [reconstruct_path prev.dossier prev.cid
                          (sous_dossier table) (last.dropRight 4)])
               1 table dossier cid (last.dropRight 4) mtime true xml
         else
           update_doc db log 0 table dossier cid (last.dropRight 4) mtime true xml
       | none =>
         update_doc db log 0 table dossier cid (last.dropRight 4) mtime false xml) := by
  simp only [process_doc, h3, h11, hl, ht]

theorem update_doc_outcome (db : DB) (log : List String) (oldInc : Nat)
    (table : Table) (dossier cid tid : String) (mtime : Int) (hasPrev : Bool)
    (xml : Option Content) (r : StepResult)
    (h : update_doc db log oldInc table dossier cid tid mtime hasPrev xml = .ok r) :
    r.outcome = if hasPrev then Outcome.updated else Outcome.inserted := by
  cases xml with
  | none => exact Except.noConfusion h
  | some c =>
    cases c with
    | article docId nature ccid liens =>
      dsimp only [update_doc] at h
      split_ifs at h ⊢ <;> try exact Except.noConfusion h
      all_goals
        cases hE : extract_liens tid liens with
        | error e => rw [hE] at h; exact Except.noConfusion h
        | ok L => rw [hE] at h; injection h with h; subst h; rfl
    | section_ta docId ccid children =>
      dsimp only [update_doc] at h
      split_ifs at h ⊢ <;> try exact Except.noConfusion h
      all_goals injection h with h; subst h; rfl
    | textelr docId nature children =>
      dsimp only [update_doc] at h
      split_ifs at h ⊢ <;> try exact Except.noConfusion h
      all_goals injection h with h; subst h; rfl
    | texte_version docId nature ccid liens =>
      dsimp only [update_doc] at h
      split_ifs at h ⊢ <;> try exact Except.noConfusion h
      all_goals
        cases hE : extract_liens tid liens with
        | error e => rw [hE] at h; exact Except.noConfusion h
        | ok L => rw [hE] at h; injection h with h; subst h; rfl

theorem update_doc_section_sommaires (db : DB) (log : List String)
    (oldInc : Nat) (table : Table) (dossier cid tid : String) (mtime : Int)
    (docId ccid : Option String) (children : List TocElem) (r : StepResult)
    (h : update_doc db log oldInc table dossier cid tid mtime true
           (some (.section_ta docId ccid children)) = .ok r) :
    r.db.sommaires =
      db.sommaires.filter (fun x => !(section_toc_scope cid tid x)) ++
        build_section_toc cid tid children := by
  dsimp only [update_doc] at h
  split_ifs at h <;>
    first
      | exact Except.noConfusion h
      | exact absurd rfl (by assumption)
      | (injection h with h; subst h; exact upsert_row_sommaires ..)

theorem update_doc_textelr_sommaires (db : DB) (log : List String)
    (oldInc : Nat) (table : Table) (dossier cid tid : String) (mtime : Int)
    (docId nature : Option String) (children : List TocElem) (r : StepResult)
    (h : update_doc db log oldInc table dossier cid tid mtime true
           (some (.textelr docId nature children)) = .ok r) :
    r.db.sommaires =
      db.sommaires.filter (fun x => !(struct_toc_scope cid tid x)) ++
        build_struct_toc cid tid children := by
  dsimp only [update_doc] at h
  split_ifs at h <;>
    first
      | exact Except.noConfusion h
      | exact absurd rfl (by assumption)
      | (injection h with h; subst h; exact upsert_row_sommaires ..)

theorem update_doc_article_liens (db : DB) (log : List String)
    (oldInc : Nat) (table : Table) (dossier cid tid : String) (mtime : Int)
    (docId nature ccid : Option String) (liens : Option (List LienElem))
    (r : StepResult)
    (h : update_doc db log oldInc table dossier cid tid mtime true
           (some (.article docId nature ccid liens)) = .ok r) :
    ∃ L, extract_liens tid liens = .ok L ∧
      r.db.liens =
        db.liens.filter (fun x => !(lien_owned tid x)) ++ L := by
  dsimp only [update_doc] at h
  split_ifs at h <;>
    first
      | exact Except.noConfusion h
      | exact absurd rfl (by assumption)
      | (cases hE : extract_liens tid liens with
          | error e => rw [hE] at h; exact Except.noConfusion h
          | ok L =>
            rw [hE] at h
            injection h with h
            subst h
            exact ⟨L, rfl, upsert_row_liens ..⟩)

theorem update_doc_texte_version_liens (db : DB) (log : List String)
    (oldInc : Nat) (table : Table) (dossier cid tid : String) (mtime : Int)
    (docId nature ccid : Option String) (liens : Option (List LienElem))
    (r : StepResult)
    (h : update_doc db log oldInc table dossier cid tid mtime true
           (some (.texte_version docId nature ccid liens)) = .ok r) :
    ∃ L, extract_liens tid liens = .ok L ∧
      r.db.liens =
        db.liens.filter (fun x => !(lien_owned tid x)) ++ L := by
  dsimp only [update_doc] at h
  split_ifs at h <;>
    first
      | exact Except.noConfusion h
      | exact absurd rfl (by assumption)
      | (cases hE : extract_liens tid liens with
          | error e => rw [hE] at h; exact Except.noConfusion h
          | ok L =>
            rw [hE] at h
            injection h with h
            subst h
            exact ⟨L, rfl, upsert_row_liens ..⟩)

/-- A successful `process_doc` whose outcome is `updated` went through
`update_doc` with a present previous row (for some log prefix and old-file
increment, which depend on whether the relocation branch was taken). -/
theorem process_doc_updated_inv (db : DB) (log : List String)
    (pathname : List String) (mtime : Int) (xml : Option Content)
    (dossier cid last : String) (table : Table) (r : StepResult)
    (h3 : (strip_parts pathname).get? 3 = some dossier)
    (h11 : (strip_parts pathname).get? 11 = some cid)
    (hl : (strip_parts pathname).getLast? = some last)
    (ht : get_table (strip_parts pathname) = some table)
    (hok : process_doc db log pathname mtime xml = .ok r)
    (hout : r.outcome = .updated) :
    ∃ log' oldInc,
      update_doc db log' oldInc table dossier cid (last.dropRight 4) mtime
        true xml = .ok r := by
  rw [process_doc_cases db log pathname mtime xml dossier cid last table
        h3 h11 hl ht] at hok
  cases hfind : (db.rows table).find? (fun x => x.id == last.dropRight 4) with
  | none =>
    simp only [hfind] at hok
    have ho := update_doc_outcome _ _ _ _ _ _ _ _ _ _ _ hok
    simp [hout] at ho
  | some prev =>
    simp only [hfind] at hok
    split_ifs at hok
    · injection hok with hok
      rw [← hok] at hout
      simp at hout
    · injection hok with hok
      rw [← hok] at hout
      simp at hout
    · exact ⟨_, _, hok⟩
    · exact ⟨_, _, hok⟩

/-- Rows surviving a `NOT p` delete never satisfy a predicate at least as
strong as `p`. -/
theorem filter_sub_nil {α : Type} (p q : α → Bool) (l : List α)
    (h : ∀ a, q a = true → p a = true) :
    (l.filter fun a => !(p a)).filter q = [] := by
  induction l with
  | nil => rfl
  | cons a t ih =>
    by_cases hp : p a = true
    · simp [List.filter_cons, hp, ih]
    · have hq : q a = false := by
        cases hqa : q a
        · rfl
        · exact absurd (h a hqa) hp
      simp [List.filter_cons, hp, hq, ih]

/-- A filter by a predicate every element satisfies keeps the list. -/
theorem filter_of_all {α : Type} (p : α → Bool) (l : List α)
    (h : ∀ a ∈ l, p a = true) : l.filter p = l :=
  List.filter_eq_self.mpr h

/-- Every row built for a section's listing is in that section's
`(cid, parent, _source)` scope. -/
theorem build_section_toc_scope (cid tid : String) (children : List TocElem) :
    ∀ s ∈ build_section_toc cid tid children,
      section_toc_scope cid tid s = true := by
  intro s hs
  unfold build_section_toc at hs
  simp only [List.mem_map] at hs
  obtain ⟨p, _, rfl⟩ := hs
  simp [section_toc_scope]

/-- Every row built for a texte structure's listing is in that structure's
delete scope. -/
theorem build_struct_toc_scope (cid tid : String) (children : List TocElem) :
    ∀ s ∈ build_struct_toc cid tid children,
      struct_toc_scope cid tid s = true := by
  intro s hs
  unfold build_struct_toc at hs
  simp only [List.mem_map] at hs
  obtain ⟨p, _, rfl⟩ := hs
  simp [struct_toc_scope]

/-- Every row built for a texte structure's listing carries a `NULL`
parent. -/
theorem build_struct_toc_parent (cid tid : String) (children : List TocElem) :
    ∀ s ∈ build_struct_toc cid tid children, s.parent == none := by
  intro s hs
  unfold build_struct_toc at hs
  simp only [List.mem_map] at hs
  obtain ⟨p, _, rfl⟩ := hs
  rfl

/-- The positions assigned to a section's listing are `0..n-1` in order. -/
theorem build_section_toc_positions (cid tid : String)
    (children : List TocElem) :
    (build_section_toc cid tid children).map (fun s => s.position) =
      List.range children.length := by
  unfold build_section_toc
  rw [List.map_map]
  exact List.enum_map_fst children

/-- The elements of a section's listing are the children's ids in order. -/
theorem build_section_toc_elements (cid tid : String)
    (children : List TocElem) :
    (build_section_toc cid tid children).map (fun s => s.element) =
      children.map (fun c => c.id) := by
  unfold build_section_toc
  rw [List.map_map]
  have : ((fun s : Sommaire => s.element) ∘ fun p : Nat × TocElem =>
      (⟨cid, some tid, p.2.id, p.2.debut, p.2.fin, p.2.etat, p.2.num, p.1,
        "section_ta_liens"⟩ : Sommaire)) =
      ((fun c : TocElem => c.id) ∘ Prod.snd) := rfl
  rw [this, ← List.map_map, List.enum_map_snd]

/-- The positions assigned to a texte structure's listing are `0..n-1` in
order. -/
theorem build_struct_toc_positions (cid tid : String)
    (children : List TocElem) :
    (build_struct_toc cid tid children).map (fun s => s.position) =
      List.range children.length := by
  unfold build_struct_toc
  rw [List.map_map]
  exact List.enum_map_fst children

/-- The elements of a texte structure's listing are the children's ids in
order. -/
theorem build_struct_toc_elements (cid tid : String)
    (children : List TocElem) :
    (build_struct_toc cid tid children).map (fun s => s.element) =
      children.map (fun c => c.id) := by
  unfold build_struct_toc
  rw [List.map_map]
  have : ((fun s : Sommaire => s.element) ∘ fun p : Nat × TocElem =>
      (⟨cid, none, p.2.id, p.2.debut, p.2.fin, p.2.etat, none, p.1,
        "struct/" ++ tid⟩ : Sommaire)) =
      ((fun c : TocElem => c.id) ∘ Prod.snd) := rfl
  rw [this, ← List.map_map, List.enum_map_snd]

/-- Every row `build_lien` produces is owned by its document under the
`liens` delete predicate. -/
theorem build_lien_owned (tid : String) (l : LienElem) (x : Lien)
    (h : build_lien tid l = .ok x) : lien_owned tid x = true := by
  dsimp only [build_lien] at h
  split_ifs at h
  · rcases hid : l.id with _ | d
    · rw [hid] at h
      exact Except.noConfusion h
    · simp only [hid] at h
      split_ifs at h
      all_goals try exact Except.noConfusion h
      all_goals
        rcases htl : l.typelien with _ | t
        · rw [htl] at h
          exact Except.noConfusion h
        · simp only [htl] at h
          injection h with h
          subst h
          simp [lien_owned]
  · injection h with h
    subst h
    simp [lien_owned]

/-- Every row `extract_liens` produces is owned by its document. -/
theorem extract_liens_owned (tid : String) (ls : Option (List LienElem))
    (L : List Lien) (h : extract_liens tid ls = .ok L) :
    ∀ x ∈ L, lien_owned tid x = true := by
  cases ls with
  | none =>
    injection h with h
    subst h
    intro x hx
    exact absurd hx (List.not_mem_nil x)
  | some ls =>
    dsimp only [extract_liens] at h
    induction ls generalizing L with
    | nil =>
      injection h with h
      subst h
      intro x hx
      exact absurd hx (List.not_mem_nil x)
    | cons a t ih =>
      rw [List.mapM_cons] at h
      cases hb : build_lien tid a with
      | error e => rw [hb] at h; exact Except.noConfusion h
      | ok x0 =>
        rw [hb] at h
        cases htm : t.mapM (build_lien tid) with
        | error e =>
          rw [htm] at h
          exact Except.noConfusion h
        | ok L0 =>
          rw [htm] at h
          injection h with h
          subst h
          intro x hx
          rcases List.mem_cons.mp hx with rfl | hx
          · exact build_lien_owned tid a x hb
          · exact ih L0 htm x hx

/-- The `(cid, parent = NULL, _source)` group of a texte structure is
contained in its delete scope. -/
theorem struct_group_sub (cid tid : String) :
    ∀ s : Sommaire,
      (s.cid == cid && s.parent == (none : Option String) &&
        s.source == "struct/" ++ tid) = true →
      struct_toc_scope cid tid s = true := by
  intro s hs
  unfold struct_toc_scope
  simp only [Bool.and_eq_true] at hs ⊢
  exact ⟨hs.1.1, hs.2⟩

/-- Every row built for a texte structure's listing is in its
`(cid, parent = NULL, _source)` group. -/
theorem build_struct_toc_group (cid tid : String) (children : List TocElem) :
    ∀ s ∈ build_struct_toc cid tid children,
      (s.cid == cid && s.parent == (none : Option String) &&
        s.source == "struct/" ++ tid) = true := by
  intro s hs
  unfold build_struct_toc at hs
  simp only [List.mem_map] at hs
  obtain ⟨p, _, rfl⟩ := hs
  simp

/-- `suppress_one` when the `DELETE` on the document table touches no row
(`changes = 0`): no cascade runs. -/
theorem suppress_one_zero (db : DB) (n : Nat) (path : String)
    (cid tid dossier : String) (table : Table)
    (h0 : (split_slash path).get? 0 = some "legi")
    (h11 : (split_slash path).get? 11 = some cid)
    (hlast : (split_slash path).getLast? = some tid)
    (hlen : tid.length = 20)
    (ht : get_table (split_slash path) = some table)
    (h3 : (split_slash path).get? 3 = some dossier)
    (hch : (db.rows table).length -
      ((db.rows table).filter fun r => !(doc_match dossier cid tid r)).length
        = 0) :
    suppress_one db n path =
      .ok (db.setRows table ((db.rows table).filter fun r =>
        !(doc_match dossier cid tid r)), n) := by
  simp only [suppress_one, h0, h11, hlast, ht, h3]
  rw [if_neg (by simp), if_neg (by simp [hlen]), if_pos hch]

/-- `suppress_one` on `articles` when a row was deleted: the owned `liens`
rows are cascade-deleted. -/
theorem suppress_one_pos_articles (db : DB) (n : Nat) (path : String)
    (cid tid dossier : String)
    (h0 : (split_slash path).get? 0 = some "legi")
    (h11 : (split_slash path).get? 11 = some cid)
    (hlast : (split_slash path).getLast? = some tid)
    (hlen : tid.length = 20)
    (ht : get_table (split_slash path) = some Table.articles)
    (h3 : (split_slash path).get? 3 = some dossier)
    (hch : ¬((db.rows Table.articles).length -
      ((db.rows Table.articles).filter fun r =>
        !(doc_match dossier cid tid r)).length = 0)) :
    suppress_one db n path =
      (let kept := (db.rows Table.articles).filter fun r =>
         !(doc_match dossier cid tid r)
       let changes := (db.rows Table.articles).length - kept.length
       let db1 := db.setRows Table.articles kept
       let keptL := db1.liens.filter fun r => !(lien_owned tid r)
       .ok ({ db1 with liens := keptL },
            n + changes + (db1.liens.length - keptL.length))) := by
  simp only [suppress_one, h0, h11, hlast, ht, h3]
  rw [if_neg (by simp), if_neg (by simp [hlen]), if_neg hch]

/-- `suppress_one` on `textes_versions` when a row was deleted. -/
theorem suppress_one_pos_tv (db : DB) (n : Nat) (path : String)
    (cid tid dossier : String)
    (h0 : (split_slash path).get? 0 = some "legi")
    (h11 : (split_slash path).get? 11 = some cid)
    (hlast : (split_slash path).getLast? = some tid)
    (hlen : tid.length = 20)
    (ht : get_table (split_slash path) = some Table.textes_versions)
    (h3 : (split_slash path).get? 3 = some dossier)
    (hch : ¬((db.rows Table.textes_versions).length -
      ((db.rows Table.textes_versions).filter fun r =>
        !(doc_match dossier cid tid r)).length = 0)) :
    suppress_one db n path =
      (let kept := (db.rows Table.textes_versions).filter fun r =>
         !(doc_match dossier cid tid r)
       let changes := (db.rows Table.textes_versions).length - kept.length
       let db1 := db.setRows Table.textes_versions kept
       let keptL := db1.liens.filter fun r => !(lien_owned tid r)
       .ok ({ db1 with liens := keptL },
            n + changes + (db1.liens.length - keptL.length))) := by
  simp only [suppress_one, h0, h11, hlast, ht, h3]
  rw [if_neg (by simp), if_neg (by simp [hlen]), if_neg hch]

/-- `suppress_one` on `sections` when a row was deleted: the owned toc rows
are cascade-deleted. -/
theorem suppress_one_pos_sections (db : DB) (n : Nat) (path : String)
    (cid tid dossier : String)
    (h0 : (split_slash path).get? 0 = some "legi")
    (h11 : (split_slash path).get? 11 = some cid)
    (hlast : (split_slash path).getLast? = some tid)
    (hlen : tid.length = 20)
    (ht : get_table (split_slash path) = some Table.sections)
    (h3 : (split_slash path).get? 3 = some dossier)
    (hch : ¬((db.rows Table.sections).length -
      ((db.rows Table.sections).filter fun r =>
        !(doc_match dossier cid tid r)).length = 0)) :
    suppress_one db n path =
      (let kept := (db.rows Table.sections).filter fun r =>
         !(doc_match dossier cid tid r)
       let changes := (db.rows Table.sections).length - kept.length
       let db1 := db.setRows Table.sections kept
       let keptS := db1.sommaires.filter fun r =>
         !(section_toc_scope cid tid r)
       .ok ({ db1 with sommaires := keptS },
            n + changes + (db1.sommaires.length - keptS.length))) := by
  simp only [suppress_one, h0, h11, hlast, ht, h3]
  rw [if_neg (by simp), if_neg (by simp [hlen]), if_neg hch]

/-- `suppress_one` on `textes_structs` when a row was deleted. -/
theorem suppress_one_pos_ts (db : DB) (n : Nat) (path : String)
    (cid tid dossier : String)
    (h0 : (split_slash path).get? 0 = some "legi")
    (h11 : (split_slash path).get? 11 = some cid)
    (hlast : (split_slash path).getLast? = some tid)
    (hlen : tid.length = 20)
    (ht : get_table (split_slash path) = some Table.textes_structs)
    (h3 : (split_slash path).get? 3 = some dossier)
    (hch : ¬((db.rows Table.textes_structs).length -
      ((db.rows Table.textes_structs).filter fun r =>
        !(doc_match dossier cid tid r)).length = 0)) :
    suppress_one db n path =
      (let kept := (db.rows Table.textes_structs).filter fun r =>
         !(doc_match dossier cid tid r)
       let changes := (db.rows Table.textes_structs).length - kept.length
       let db1 := db.setRows Table.textes_structs kept
       let keptS := db1.sommaires.filter fun r =>
         !(struct_toc_scope cid tid r)
       .ok ({ db1 with sommaires := keptS },
            n + changes + (db1.sommaires.length - keptS.length))) := by
  simp only [suppress_one, h0, h11, hlast, ht, h3]
  rw [if_neg (by simp), if_neg (by simp [hlen]), if_neg hch]

/-- A manifest reference that matches no stored row is a silent no-op. -/
theorem suppress_one_nomatch (db : DB) (n : Nat) (path : String)
    (cid tid dossier : String) (table : Table)
    (h0 : (split_slash path).get? 0 = some "legi")
    (h11 : (split_slash path).get? 11 = some cid)
    (hlast : (split_slash path).getLast? = some tid)
    (hlen : tid.length = 20)
    (ht : get_table (split_slash path) = some table)
    (h3 : (split_slash path).get? 3 = some dossier)
    (hnone : ∀ r ∈ db.rows table, doc_match dossier cid tid r = false) :
    suppress_one db n path = .ok (db, n) := by
  have hkept : ((db.rows table).filter fun r =>
      !(doc_match dossier cid tid r)) = db.rows table :=
    filter_of_all _ _ (fun a ha => by rw [hnone a ha]; rfl)
  rw [suppress_one_zero db n path cid tid dossier table h0 h11 hlast hlen ht h3
        (by rw [hkept, Nat.sub_self]),
      hkept, DB.setRows_rows_self]

/-- Whatever `suppress_one` did, the referenced table afterwards holds
exactly the rows not matching the reference. -/
theorem suppress_one_rows (db : DB) (n : Nat) (path : String)
    (cid tid dossier : String) (table : Table) (db' : DB) (n' : Nat)
    (h0 : (split_slash path).get? 0 = some "legi")
    (h11 : (split_slash path).get? 11 = some cid)
    (hlast : (split_slash path).getLast? = some tid)
    (hlen : tid.length = 20)
    (ht : get_table (split_slash path) = some table)
    (h3 : (split_slash path).get? 3 = some dossier)
    (hok : suppress_one db n path = .ok (db', n')) :
    db'.rows table =
      (db.rows table).filter fun r => !(doc_match dossier cid tid r) := by
  by_cases hch : (db.rows table).length -
      ((db.rows table).filter fun r => !(doc_match dossier cid tid r)).length
        = 0
  · have he := (suppress_one_zero db n path cid tid dossier table
      h0 h11 hlast hlen ht h3 hch).symm.trans hok
    injection he with he
    rw [Prod.mk.injEq] at he
    rw [← he.1, DB.rows_setRows_self]
  · cases table with
    | articles =>
      have he := (suppress_one_pos_articles db n path cid tid dossier
        h0 h11 hlast hlen ht h3 hch).symm.trans hok
      injection he with he
      rw [Prod.mk.injEq] at he
      rw [← he.1, DB.rows_setRows_liens, DB.rows_setRows_self]
    | sections =>
      have he := (suppress_one_pos_sections db n path cid tid dossier
        h0 h11 hlast hlen ht h3 hch).symm.trans hok
      injection he with he
      rw [Prod.mk.injEq] at he
      rw [← he.1, DB.rows_setRows_sommaires, DB.rows_setRows_self]
    | textes_structs =>
      have he := (suppress_one_pos_ts db n path cid tid dossier
        h0 h11 hlast hlen ht h3 hch).symm.trans hok
      injection he with he
      rw [Prod.mk.injEq] at he
      rw [← he.1, DB.rows_setRows_sommaires, DB.rows_setRows_self]
    | textes_versions =>
      have he := (suppress_one_pos_tv db n path cid tid dossier
        h0 h11 hlast hlen ht h3 hch).symm.trans hok
      injection he with he
      rw [Prod.mk.injEq] at he
      rw [← he.1, DB.rows_setRows_liens, DB.rows_setRows_self]

/-- A matching row existing in the referenced table makes the `DELETE`
touch at least one row. -/
theorem suppress_changes_pos (rows : List DocRow) (pm : DocRow → Bool)
    (hex : ∃ r ∈ rows, pm r = true) :
    ¬(rows.length - (rows.filter fun r => !(pm r)).length = 0) := by
  obtain ⟨r, hr, hpr⟩ := hex
  have hlt : (rows.filter fun r => !(pm r)).length < rows.length :=
    List.length_filter_lt_length_iff_exists.mpr ⟨r, hr, by simp [hpr]⟩
  omega

/-- When a deletion-manifest reference on `articles` deletes a row, the
`liens` cascade runs: afterwards only non-owned link rows remain. -/
theorem suppress_one_liens_articles (db : DB) (n : Nat) (path : String)
    (cid tid dossier : String) (db' : DB) (n' : Nat)
    (h0 : (split_slash path).get? 0 = some "legi")
    (h11 : (split_slash path).get? 11 = some cid)
    (hlast : (split_slash path).getLast? = some tid)
    (hlen : tid.length = 20)
    (ht : get_table (split_slash path) = some Table.articles)
    (h3 : (split_slash path).get? 3 = some dossier)
    (hok : suppress_one db n path = .ok (db', n'))
    (hex : ∃ r ∈ db.rows Table.articles, doc_match dossier cid tid r = true) :
    db'.liens = db.liens.filter fun r => !(lien_owned tid r) := by
  have he := (suppress_one_pos_articles db n path cid tid dossier
    h0 h11 hlast hlen ht h3
    (suppress_changes_pos _ _ hex)).symm.trans hok
  injection he with he
  rw [Prod.mk.injEq] at he
  rw [← he.1]
  show (db.setRows Table.articles _).liens.filter _ = _
  rw [DB.liens_setRows]

/-- Same cascade for `textes_versions`. -/
theorem suppress_one_liens_tv (db : DB) (n : Nat) (path : String)
    (cid tid dossier : String) (db' : DB) (n' : Nat)
    (h0 : (split_slash path).get? 0 = some "legi")
    (h11 : (split_slash path).get? 11 = some cid)
    (hlast : (split_slash path).getLast? = some tid)
    (hlen : tid.length = 20)
    (ht : get_table (split_slash path) = some Table.textes_versions)
    (h3 : (split_slash path).get? 3 = some dossier)
    (hok : suppress_one db n path = .ok (db', n'))
    (hex : ∃ r ∈ db.rows Table.textes_versions,
      doc_match dossier cid tid r = true) :
    db'.liens = db.liens.filter fun r => !(lien_owned tid r) := by
  have he := (suppress_one_pos_tv db n path cid tid dossier
    h0 h11 hlast hlen ht h3
    (suppress_changes_pos _ _ hex)).symm.trans hok
  injection he with he
  rw [Prod.mk.injEq] at he
  rw [← he.1]
  show (db.setRows Table.textes_versions _).liens.filter _ = _
  rw [DB.liens_setRows]

/-- When a deletion-manifest reference on `sections` deletes a row, the
`sommaires` cascade runs. -/
theorem suppress_one_sommaires_sections (db : DB) (n : Nat) (path : String)
    (cid tid dossier : String) (db' : DB) (n' : Nat)
    (h0 : (split_slash path).get? 0 = some "legi")
    (h11 : (split_slash path).get? 11 = some cid)
    (hlast : (split_slash path).getLast? = some tid)
    (hlen : tid.length = 20)
    (ht : get_table (split_slash path) = some Table.sections)
    (h3 : (split_slash path).get? 3 = some dossier)
    (hok : suppress_one db n path = .ok (db', n'))
    (hex : ∃ r ∈ db.rows Table.sections, doc_match dossier cid tid r = true) :
    db'.sommaires =
      db.sommaires.filter fun r => !(section_toc_scope cid tid r) := by
  have he := (suppress_one_pos_sections db n path cid tid dossier
    h0 h11 hlast hlen ht h3
    (suppress_changes_pos _ _ hex)).symm.trans hok
  injection he with he
  rw [Prod.mk.injEq] at he
  rw [← he.1]
  show (db.setRows Table.sections _).sommaires.filter _ = _
  rw [DB.sommaires_setRows]

/-- Same cascade for `textes_structs`. -/
theorem suppress_one_sommaires_ts (db : DB) (n : Nat) (path : String)
    (cid tid dossier : String) (db' : DB) (n' : Nat)
    (h0 : (split_slash path).get? 0 = some "legi")
    (h11 : (split_slash path).get? 11 = some cid)
    (hlast : (split_slash path).getLast? = some tid)
    (hlen : tid.length = 20)
    (ht : get_table (split_slash path) = some Table.textes_structs)
    (h3 : (split_slash path).get? 3 = some dossier)
    (hok : suppress_one db n path = .ok (db', n'))
    (hex : ∃ r ∈ db.rows Table.textes_structs,
      doc_match dossier cid tid r = true) :
    db'.sommaires =
      db.sommaires.filter fun r => !(struct_toc_scope cid tid r) := by
  have he := (suppress_one_pos_ts db n path cid tid dossier
    h0 h11 hlast hlen ht h3
    (suppress_changes_pos _ _ hex)).symm.trans hok
  injection he with he
  rw [Prod.mk.injEq] at he
  rw [← he.1]
  show (db.setRows Table.textes_structs _).sommaires.filter _ = _
  rw [DB.sommaires_setRows]

/-- One step of `main`'s loop never lowers the watermark. -/
theorem main_step_lastUpdate_mono (s : RunState) (f : ArchiveFile)
    (lu : String) (h : s.db.lastUpdate = some lu) :
    ∃ lu', (main_step s f).db.lastUpdate = some lu' ∧ lu ≤ lu' := by
  unfold main_step
  split
  · exact ⟨lu, h, le_refl lu⟩
  · split
    · exact ⟨lu, h, le_refl lu⟩
    · cases hp : parse_archive_name f.name with
      | none => exact ⟨lu, h, le_refl lu⟩
      | some gd =>
        obtain ⟨g, date⟩ := gd
        simp only
        split
        · exact ⟨lu, h, le_refl lu⟩
        · split
          · exact ⟨lu, h, le_refl lu⟩
          · rename_i hst
            cases happ : apply_archive s.db s.log f.entries date with
            | error e => exact ⟨lu, h, le_refl lu⟩
            | ok p =>
              obtain ⟨db', log'⟩ := p
              simp only
              refine ⟨date, ?_, ?_⟩
              · show db'.lastUpdate = some date
                unfold apply_archive at happ
                cases hpa : process_archive s.db s.log f.entries with
                | error e => rw [hpa] at happ; exact Except.noConfusion happ
                | ok res =>
                  obtain ⟨rdb, rlog, rcnt⟩ := res
                  rw [hpa] at happ
                  injection happ with happ
                  rw [Prod.mk.injEq] at happ
                  rw [← happ.1]
              · rw [h] at hst
                have hnle : ¬(date ≤ lu) := fun hh => hst (by simp [hh])
                exact le_of_lt (lt_of_not_le hnle)

/-- Watermark monotonicity over any fold of `main_step`. -/
theorem foldl_main_step_mono (files : List ArchiveFile) :
    ∀ (s : RunState) (lu : String), s.db.lastUpdate = some lu →
      ∃ lu', (files.foldl main_step s).db.lastUpdate = some lu' ∧
        lu ≤ lu' := by
  induction files with
  | nil => exact fun s lu h => ⟨lu, h, le_refl lu⟩
  | cons f t ih =>
    intro s lu h
    obtain ⟨lu1, h1, hle1⟩ := main_step_lastUpdate_mono s f lu h
    obtain ⟨lu2, h2, hle2⟩ := ih (main_step s f) lu1 h1
    exact ⟨lu2, h2, le_trans hle1 hle2⟩

/-! ### Claim theorems -/

/-- C1 (counterexample): the claim "a candidate whose mtime is strictly
lower than the stored mtime and whose dossier and cid are unchanged is
always discarded, leaving the stored row unmodified" is false: with the
article stored as `(D1, C1, mtime 100)` and a candidate at the same path
with mtime 90, the candidate is applied — the row is overwritten and its
stored mtime decreases to 90. -/
theorem c1_counterexample :
    process_doc dbSame [] artPath 90 (some artContent) =
      .ok ⟨⟨[⟨artId, "D1", "C1", 90⟩], [], [], [], [], [], none⟩, [], 0,
           .updated⟩ ∧
    dbSame.articles = [⟨artId, "D1", "C1", 100⟩] :=
  ⟨rfl, rfl⟩

/-- C1 (amended): a candidate with strictly lower mtime than the stored row
is discarded (row unmodified, candidate path logged, old-file counted) only
when its dossier or cid differs from the stored row's; when both are
unchanged the candidate is applied as a normal update, so a stored mtime can
decrease. -/
theorem c1_amended (db : DB) (log : List String) (pathname : List String)
    (mtime : Int) (xml : Option Content) (dossier cid last : String)
    (table : Table) (prev : DocRow)
    (h3 : (strip_parts pathname).get? 3 = some dossier)
    (h11 : (strip_parts pathname).get? 11 = some cid)
    (hl : (strip_parts pathname).getLast? = some last)
    (ht : get_table (strip_parts pathname) = some table)
    (hf : (db.rows table).find? (fun r => r.id == last.dropRight 4) = some prev)
    (hm : mtime < prev.mtime)
    (hc : prev.dossier ≠ dossier ∨ prev.cid ≠ cid) :
    process_doc db log pathname mtime xml =
      .ok ⟨db, log ++ [String.intercalate "/" (strip_parts pathname)], 1,
           .discarded⟩ := by
  rw [process_doc_cases db log pathname mtime xml dossier cid last table
        h3 h11 hl ht]
  simp only [hf]
  rw [if_neg (by omega), if_pos hc, if_pos (by omega)]

/-- C1 (amended, witness): the discard branch at a concrete relocated stale
candidate. -/
theorem c1_amended_witness :
    process_doc dbMoved [] artPath 90 (some artContent) =
      .ok ⟨dbMoved, [] ++ [String.intercalate "/" (strip_parts artPath)], 1,
           .discarded⟩ :=
  c1_amended dbMoved [] artPath 90 (some artContent) "D1" "C1"
    "LEGIARTI000000000001.xml" .articles ⟨artId, "D2", "C1", 100⟩
    rfl rfl rfl rfl rfl (by decide) (Or.inl (by decide))

/-- C2 (counterexample): the claim "a candidate with mtime equal to the
stored mtime but a different dossier or cid is counted as an old file and a
relocation record pointing at the candidate's path is emitted" is false:
the equal-mtime check (line 155) runs before the dossier/cid comparison, so
with the article stored under dossier `D2` and an equal-mtime candidate
under `D1` the entry is skipped silently — `old_files_count` increment 0 and
nothing appended to the old-path log. -/
theorem c2_counterexample :
    process_doc dbMoved [] artPath 100 (some artContent) =
      .ok ⟨dbMoved, [], 0, .skipped⟩ ∧
    dbMoved.articles = [⟨artId, "D2", "C1", 100⟩] :=
  ⟨rfl, rfl⟩

/-- C2 (amended): a candidate for an already-present document whose mtime
equals the stored mtime but whose dossier or cid differs is discarded, but
silently: the equal-mtime skip precedes the dossier/cid comparison, so it is
not counted as an old file and no relocation record is written. -/
theorem c2_amended (db : DB) (log : List String) (pathname : List String)
    (mtime : Int) (xml : Option Content) (dossier cid last : String)
    (table : Table) (prev : DocRow)
    (h3 : (strip_parts pathname).get? 3 = some dossier)
    (h11 : (strip_parts pathname).get? 11 = some cid)
    (hl : (strip_parts pathname).getLast? = some last)
    (ht : get_table (strip_parts pathname) = some table)
    (hf : (db.rows table).find? (fun r => r.id == last.dropRight 4) = some prev)
    (hm : prev.mtime = mtime)
    (hc : prev.dossier ≠ dossier ∨ prev.cid ≠ cid) :
    process_doc db log pathname mtime xml = .ok ⟨db, log, 0, .skipped⟩ := by
  rw [process_doc_cases db log pathname mtime xml dossier cid last table
        h3 h11 hl ht]
  simp only [hf]
  rw [if_pos hm]

/-- C2 (amended, witness): the silent equal-mtime skip at a concrete
relocated duplicate. -/
theorem c2_amended_witness :
    process_doc dbMoved ["x"] artPath 100 (some artContent) =
      .ok ⟨dbMoved, ["x"], 0, .skipped⟩ :=
  c2_amended dbMoved ["x"] artPath 100 (some artContent) "D1" "C1"
    "LEGIARTI000000000001.xml" .articles ⟨artId, "D2", "C1", 100⟩
    rfl rfl rfl rfl rfl rfl (Or.inl (by decide))

/-- C9 (confirmed): re-ingesting a document whose candidate mtime equals
the stored mtime is a no-op for that entry: the store, the old-path log and
the old-file count are left untouched (so no document, `liens` or
`sommaires` row is inserted, updated or deleted) and the entry takes the
skip branch, whatever its decoded content. -/
theorem c9_equal_mtime_noop (db : DB) (log : List String)
    (pathname : List String) (mtime : Int) (xml : Option Content)
    (dossier cid last : String) (table : Table) (prev : DocRow)
    (h3 : (strip_parts pathname).get? 3 = some dossier)
    (h11 : (strip_parts pathname).get? 11 = some cid)
    (hl : (strip_parts pathname).getLast? = some last)
    (ht : get_table (strip_parts pathname) = some table)
    (hf : (db.rows table).find? (fun r => r.id == last.dropRight 4) = some prev)
    (hm : prev.mtime = mtime) :
    process_doc db log pathname mtime xml = .ok ⟨db, log, 0, .skipped⟩ := by
  rw [process_doc_cases db log pathname mtime xml dossier cid last table
        h3 h11 hl ht]
  simp only [hf]
  rw [if_pos hm]

/-- C9 (witness): the no-op skip at a concrete re-ingested article. -/
theorem c9_witness :
    process_doc dbSame [] artPath 100 (some artContent) =
      .ok ⟨dbSame, [], 0, .skipped⟩ :=
  c9_equal_mtime_noop dbSame [] artPath 100 (some artContent) "D1" "C1"
    "LEGIARTI000000000001.xml" .articles ⟨artId, "D1", "C1", 100⟩
    rfl rfl rfl rfl rfl rfl

/-- C3 (counterexample): the claim "every accepted update deletes all
TocEntry rows the prior version produced, including when the document's cid
changed" is false: the section stored under cid `C1` produced the toc row
`oldToc`; relocating it to cid `C2` with a newer mtime is an accepted update
(outcome `updated`), yet `oldToc` — scoped under the prior cid `C1` — is
still present afterwards, because the delete of lines 208-213 is scoped to
the candidate's cid. -/
theorem c3_counterexample :
    process_doc dbSecOld [] sctaPath 200 (some sctaContentC2) =
      .ok ⟨⟨[], [⟨sctaId, "D1", "C2", 200⟩], [], [], [], [oldToc], none⟩,
           [reconstruct_path "D1" "C1" "section_ta" sctaId], 1, .updated⟩ ∧
    dbSecOld.sommaires = [oldToc] ∧ oldToc.cid = "C1" :=
  ⟨rfl, rfl, rfl⟩

/-- C3 (amended): an accepted update of a container document deletes the
derived toc rows only within the scope keyed by the candidate's cid — for a
section the `(cid, parent, 'section_ta_liens')` group, for a texte structure
the `(cid, 'struct/' + id)` scope — and regenerates that scope; rows the
prior version produced under a different cid are left in place. -/
theorem c3_amended :
    (∀ (db : DB) (log : List String) (pathname : List String) (mtime : Int)
       (docId ccid : Option String) (children : List TocElem)
       (r : StepResult) (dossier cid last : String) (table : Table),
       (strip_parts pathname).get? 3 = some dossier →
       (strip_parts pathname).get? 11 = some cid →
       (strip_parts pathname).getLast? = some last →
       get_table (strip_parts pathname) = some table →
       process_doc db log pathname mtime
           (some (.section_ta docId ccid children)) = .ok r →
       r.outcome = .updated →
       r.db.sommaires =
         db.sommaires.filter
             (fun x => !(section_toc_scope cid (last.dropRight 4) x)) ++
           build_section_toc cid (last.dropRight 4) children) ∧
    (∀ (db : DB) (log : List String) (pathname : List String) (mtime : Int)
       (docId nature : Option String) (children : List TocElem)
       (r : StepResult) (dossier cid last : String) (table : Table),
       (strip_parts pathname).get? 3 = some dossier →
       (strip_parts pathname).get? 11 = some cid →
       (strip_parts pathname).getLast? = some last →
       get_table (strip_parts pathname) = some table →
       process_doc db log pathname mtime
           (some (.textelr docId nature children)) = .ok r →
       r.outcome = .updated →
       r.db.sommaires =
         db.sommaires.filter
             (fun x => !(struct_toc_scope cid (last.dropRight 4) x)) ++
           build_struct_toc cid (last.dropRight 4) children) := by
  constructor
  · intro db log pathname mtime docId ccid children r dossier cid last table
      h3 h11 hl ht hok hout
    obtain ⟨log', oldInc, hup⟩ :=
      process_doc_updated_inv db log pathname mtime _ dossier cid last table r
        h3 h11 hl ht hok hout
    exact update_doc_section_sommaires db log' oldInc table dossier cid
      (last.dropRight 4) mtime docId ccid children r hup
  · intro db log pathname mtime docId nature children r dossier cid last table
      h3 h11 hl ht hok hout
    obtain ⟨log', oldInc, hup⟩ :=
      process_doc_updated_inv db log pathname mtime _ dossier cid last table r
        h3 h11 hl ht hok hout
    exact update_doc_textelr_sommaires db log' oldInc table dossier cid
      (last.dropRight 4) mtime docId nature children r hup

/-- C3 (amended, witness): the scoped regeneration at the concrete relocated
section of the counterexample. -/
theorem c3_amended_witness :
    (⟨⟨[], [⟨sctaId, "D1", "C2", 200⟩], [], [], [], [oldToc], none⟩,
      [reconstruct_path "D1" "C1" "section_ta" sctaId], 1,
      .updated⟩ : StepResult).db.sommaires =
      dbSecOld.sommaires.filter
          (fun x => !(section_toc_scope "C2" sctaId x)) ++
        build_section_toc "C2" sctaId [] :=
  c3_amended.1 dbSecOld [] sctaPath 200 (some sctaId) (some "C2") [] _
    "D1" "C2" "LEGISCTA000000000001.xml" .sections rfl rfl rfl rfl rfl rfl

/-- C6 (confirmed): after an accepted update of a document owning citations
(article or texte version with id `t`), the set of `liens` rows owned by it
— `src_id = t` non-reversed or `dst_id = t` reversed — is exactly the list
extracted from the entry's current content (so no row from a prior version
remains), and a target-side (`sens='cible'`) citation is stored with the
endpoints swapped, `_reversed = true`, and `typelien` mapped through
`TYPELIEN_MAP` with fallback `typelien + '_R'`. -/
theorem c6_link_regeneration :
    (∀ (db : DB) (log : List String) (pathname : List String) (mtime : Int)
       (docId nature ccid : Option String) (liens : Option (List LienElem))
       (r : StepResult) (dossier cid last : String) (table : Table),
       (strip_parts pathname).get? 3 = some dossier →
       (strip_parts pathname).get? 11 = some cid →
       (strip_parts pathname).getLast? = some last →
       get_table (strip_parts pathname) = some table →
       process_doc db log pathname mtime
           (some (.article docId nature ccid liens)) = .ok r →
       r.outcome = .updated →
       ∃ L, extract_liens (last.dropRight 4) liens = .ok L ∧
         r.db.liens.filter (lien_owned (last.dropRight 4)) = L) ∧
    (∀ (db : DB) (log : List String) (pathname : List String) (mtime : Int)
       (docId nature ccid : Option String) (liens : Option (List LienElem))
       (r : StepResult) (dossier cid last : String) (table : Table),
       (strip_parts pathname).get? 3 = some dossier →
       (strip_parts pathname).get? 11 = some cid →
       (strip_parts pathname).getLast? = some last →
       get_table (strip_parts pathname) = some table →
       process_doc db log pathname mtime
           (some (.texte_version docId nature ccid liens)) = .ok r →
       r.outcome = .updated →
       ∃ L, extract_liens (last.dropRight 4) liens = .ok L ∧
         r.db.liens.filter (lien_owned (last.dropRight 4)) = L) ∧
    (∀ (tid : String) (l : LienElem) (t d : String) (x : Lien),
       l.sens = some "cible" → l.id = some d → l.typelien = some t →
       build_lien tid l = .ok x →
       x = ⟨d, some "", some tid, some "",
            some ((TYPELIEN_MAP.lookup t).getD (t ++ "_R")), true⟩) := by
  refine ⟨?_, ?_, ?_⟩
  · intro db log pathname mtime docId nature ccid liens r dossier cid last
      table h3 h11 hl ht hok hout
    obtain ⟨log', oldInc, hup⟩ :=
      process_doc_updated_inv db log pathname mtime _ dossier cid last table r
        h3 h11 hl ht hok hout
    obtain ⟨L, hE, hLl⟩ :=
      update_doc_article_liens db log' oldInc table dossier cid
        (last.dropRight 4) mtime docId nature ccid liens r hup
    refine ⟨L, hE, ?_⟩
    rw [hLl, List.filter_append,
        filter_sub_nil (lien_owned (last.dropRight 4))
          (lien_owned (last.dropRight 4)) _ (fun a ha => ha),
        filter_of_all _ _ (extract_liens_owned (last.dropRight 4) liens L hE),
        List.nil_append]
  · intro db log pathname mtime docId nature ccid liens r dossier cid last
      table h3 h11 hl ht hok hout
    obtain ⟨log', oldInc, hup⟩ :=
      process_doc_updated_inv db log pathname mtime _ dossier cid last table r
        h3 h11 hl ht hok hout
    obtain ⟨L, hE, hLl⟩ :=
      update_doc_texte_version_liens db log' oldInc table dossier cid
        (last.dropRight 4) mtime docId nature ccid liens r hup
    refine ⟨L, hE, ?_⟩
    rw [hLl, List.filter_append,
        filter_sub_nil (lien_owned (last.dropRight 4))
          (lien_owned (last.dropRight 4)) _ (fun a ha => ha),
        filter_of_all _ _ (extract_liens_owned (last.dropRight 4) liens L hE),
        List.nil_append]
  · intro tid l t d x hsens hid htl h
    dsimp only [build_lien] at h
    rw [if_pos hsens] at h
    simp only [hid] at h
    split_ifs at h
    all_goals try exact Except.noConfusion h
    all_goals
      simp only [htl] at h
      injection h with h
      subst h
      rfl

/-- C6 (witness): the link regeneration at a concrete article update with
one source-side and one target-side citation on top of one owned and one
foreign stored row. -/
theorem c6_witness :
    (∃ L, extract_liens artId (some [lePlain, leCible]) = .ok L ∧
      (⟨⟨[⟨artId, "D1", "C1", 200⟩], [], [], [],
         [lienForeign,
          ⟨artId, some "C9", some "LEGIARTI000000000098", some "titre",
           some "CITATION", false⟩,
          ⟨"LEGIARTI000000000099", some "", some artId, some "",
           some "MODIFIE", true⟩], [], none⟩,
        [], 0, .updated⟩ : StepResult).db.liens.filter (lien_owned artId) = L) ∧
    (⟨"LEGIARTI000000000099", some "", some artId, some "", some "MODIFIE",
      true⟩ : Lien) =
      ⟨"LEGIARTI000000000099", some "", some artId, some "",
       some ((TYPELIEN_MAP.lookup "MODIFICATION").getD ("MODIFICATION" ++ "_R")),
       true⟩ :=
  ⟨c6_link_regeneration.1 dbArtLiens [] artPath 200 (some artId)
      (some "Article") (some "C1") (some [lePlain, leCible]) _
      "D1" "C1" "LEGIARTI000000000001.xml" .articles rfl rfl rfl rfl rfl rfl,
   c6_link_regeneration.2.2 artId leCible "MODIFICATION"
      "LEGIARTI000000000099"
      ⟨"LEGIARTI000000000099", some "", some artId, some "", some "MODIFIE",
       true⟩ rfl rfl rfl rfl⟩

/-- C7 (confirmed): after an accepted update of a container document, the
toc rows in its `(cid, parent, _source)` group — `(cid, id,
'section_ta_liens')` for a section, `(cid, NULL, 'struct/' + id)` for a
texte structure — are exactly the rows built from the current listing, whose
`position` values are `0..n-1` with no gaps or duplicates, in the order of
the listed child elements. -/
theorem c7_toc_contiguity :
    (∀ (db : DB) (log : List String) (pathname : List String) (mtime : Int)
       (docId ccid : Option String) (children : List TocElem)
       (r : StepResult) (dossier cid last : String) (table : Table),
       (strip_parts pathname).get? 3 = some dossier →
       (strip_parts pathname).get? 11 = some cid →
       (strip_parts pathname).getLast? = some last →
       get_table (strip_parts pathname) = some table →
       process_doc db log pathname mtime
           (some (.section_ta docId ccid children)) = .ok r →
       r.outcome = .updated →
       r.db.sommaires.filter (section_toc_scope cid (last.dropRight 4)) =
           build_section_toc cid (last.dropRight 4) children ∧
       (build_section_toc cid (last.dropRight 4) children).map
           (fun s => s.position) = List.range children.length ∧
       (build_section_toc cid (last.dropRight 4) children).map
           (fun s => s.element) = children.map (fun c => c.id)) ∧
    (∀ (db : DB) (log : List String) (pathname : List String) (mtime : Int)
       (docId nature : Option String) (children : List TocElem)
       (r : StepResult) (dossier cid last : String) (table : Table),
       (strip_parts pathname).get? 3 = some dossier →
       (strip_parts pathname).get? 11 = some cid →
       (strip_parts pathname).getLast? = some last →
       get_table (strip_parts pathname) = some table →
       process_doc db log pathname mtime
           (some (.textelr docId nature children)) = .ok r →
       r.outcome = .updated →
       r.db.sommaires.filter
           (fun s => s.cid == cid && s.parent == (none : Option String) &&
             s.source == "struct/" ++ (last.dropRight 4)) =
           build_struct_toc cid (last.dropRight 4) children ∧
       (build_struct_toc cid (last.dropRight 4) children).map
           (fun s => s.position) = List.range children.length ∧
       (build_struct_toc cid (last.dropRight 4) children).map
           (fun s => s.element) = children.map (fun c => c.id)) := by
  constructor
  · intro db log pathname mtime docId ccid children r dossier cid last table
      h3 h11 hl ht hok hout
    obtain ⟨log', oldInc, hup⟩ :=
      process_doc_updated_inv db log pathname mtime _ dossier cid last table r
        h3 h11 hl ht hok hout
    have hS := update_doc_section_sommaires db log' oldInc table dossier cid
      (last.dropRight 4) mtime docId ccid children r hup
    refine ⟨?_, build_section_toc_positions _ _ _,
            build_section_toc_elements _ _ _⟩
    rw [hS, List.filter_append,
        filter_sub_nil (section_toc_scope cid (last.dropRight 4))
          (section_toc_scope cid (last.dropRight 4)) _ (fun a ha => ha),
        filter_of_all _ _ (build_section_toc_scope cid (last.dropRight 4)
          children),
        List.nil_append]
  · intro db log pathname mtime docId nature children r dossier cid last table
      h3 h11 hl ht hok hout
    obtain ⟨log', oldInc, hup⟩ :=
      process_doc_updated_inv db log pathname mtime _ dossier cid last table r
        h3 h11 hl ht hok hout
    have hS := update_doc_textelr_sommaires db log' oldInc table dossier cid
      (last.dropRight 4) mtime docId nature children r hup
    refine ⟨?_, build_struct_toc_positions _ _ _,
            build_struct_toc_elements _ _ _⟩
    rw [hS, List.filter_append,
        filter_sub_nil (struct_toc_scope cid (last.dropRight 4))
          (fun s => s.cid == cid && s.parent == (none : Option String) &&
            s.source == "struct/" ++ (last.dropRight 4)) _
          (struct_group_sub cid (last.dropRight 4)),
        filter_of_all _ _ (build_struct_toc_group cid (last.dropRight 4)
          children),
        List.nil_append]

/-- C7 (witness): the regenerated contiguous groups at a concrete section
update (two children, stale row at position 5 replaced) and a concrete texte
structure update (one child, stale row at position 7 replaced). -/
theorem c7_witness :
    ((⟨⟨[], [⟨sctaId, "D1", "C1", 200⟩], [], [], [],
        build_section_toc "C1" sctaId [tocA, tocB], none⟩, [], 0,
       .updated⟩ : StepResult).db.sommaires.filter
          (section_toc_scope "C1" sctaId) =
        build_section_toc "C1" sctaId [tocA, tocB] ∧
     (build_section_toc "C1" sctaId [tocA, tocB]).map (fun s => s.position) =
        List.range 2 ∧
     (build_section_toc "C1" sctaId [tocA, tocB]).map (fun s => s.element) =
        [tocA, tocB].map (fun c => c.id)) ∧
    ((⟨⟨[], [], [⟨tlrId, "D1", "CT", 200⟩], [], [],
        build_struct_toc "CT" tlrId [tocA], none⟩, [], 0,
       .updated⟩ : StepResult).db.sommaires.filter
          (fun s => s.cid == "CT" && s.parent == (none : Option String) &&
            s.source == "struct/" ++ tlrId) =
        build_struct_toc "CT" tlrId [tocA] ∧
     (build_struct_toc "CT" tlrId [tocA]).map (fun s => s.position) =
        List.range 1 ∧
     (build_struct_toc "CT" tlrId [tocA]).map (fun s => s.element) =
        [tocA].map (fun c => c.id)) :=
  ⟨c7_toc_contiguity.1 dbSecC1 [] sctaPathC1 200 (some sctaId) (some "C1")
      [tocA, tocB] _ "D1" "C1" "LEGISCTA000000000001.xml" .sections
      rfl rfl rfl rfl rfl rfl,
   c7_toc_contiguity.2 dbTlr [] tlrPath 200 (some tlrId) (some "CODE")
      [tocA] _ "D1" "CT" "LEGITEXT000000000001.xml" .textes_structs
      rfl rfl rfl rfl rfl rfl⟩

/-- C8 (confirmed): for a deletion-manifest reference, after a successful
application (a) no row matching the reference remains in the referenced
table; (b) if a row was deleted and the table is `articles` or
`textes_versions`, no `liens` row owned by the id remains (src-side
non-reversed or dst-side reversed); (c,d) if the table is `sections` or
`textes_structs`, no toc row in the owned scope remains; (e) a reference
matching no stored row is a silent no-op (store and counter unchanged); and
(f) re-applying the same reference to the resulting store is a no-op, so
applying a reference twice leaves the state unchanged. -/
theorem c8_deletion_cascade :
    ∀ (db : DB) (n : Nat) (path : String) (cid tid dossier : String)
      (table : Table) (db' : DB) (n' : Nat),
      (split_slash path).get? 0 = some "legi" →
      (split_slash path).get? 11 = some cid →
      (split_slash path).getLast? = some tid →
      tid.length = 20 →
      get_table (split_slash path) = some table →
      (split_slash path).get? 3 = some dossier →
      suppress_one db n path = .ok (db', n') →
      ((∀ r ∈ db'.rows table, doc_match dossier cid tid r = false) ∧
       ((table = Table.articles ∨ table = Table.textes_versions) →
         (∃ r ∈ db.rows table, doc_match dossier cid tid r = true) →
         ∀ x ∈ db'.liens, lien_owned tid x = false) ∧
       (table = Table.sections →
         (∃ r ∈ db.rows table, doc_match dossier cid tid r = true) →
         ∀ s ∈ db'.sommaires, section_toc_scope cid tid s = false) ∧
       (table = Table.textes_structs →
         (∃ r ∈ db.rows table, doc_match dossier cid tid r = true) →
         ∀ s ∈ db'.sommaires, struct_toc_scope cid tid s = false) ∧
       ((∀ r ∈ db.rows table, doc_match dossier cid tid r = false) →
         db' = db ∧ n' = n) ∧
       suppress_one db' n' path = .ok (db', n')) := by
  intro db n path cid tid dossier table db' n' h0 h11 hlast hlen ht h3 hok
  have ha : ∀ r ∈ db'.rows table, doc_match dossier cid tid r = false := by
    intro r hr
    rw [suppress_one_rows db n path cid tid dossier table db' n'
          h0 h11 hlast hlen ht h3 hok] at hr
    simpa using (List.mem_filter.mp hr).2
  refine ⟨ha, ?_, ?_, ?_, ?_, ?_⟩
  · intro htab hex x hx
    rcases htab with rfl | rfl
    · rw [suppress_one_liens_articles db n path cid tid dossier db' n'
            h0 h11 hlast hlen ht h3 hok hex] at hx
      simpa using (List.mem_filter.mp hx).2
    · rw [suppress_one_liens_tv db n path cid tid dossier db' n'
            h0 h11 hlast hlen ht h3 hok hex] at hx
      simpa using (List.mem_filter.mp hx).2
  · intro htab hex s hs
    subst htab
    rw [suppress_one_sommaires_sections db n path cid tid dossier db' n'
          h0 h11 hlast hlen ht h3 hok hex] at hs
    simpa using (List.mem_filter.mp hs).2
  · intro htab hex s hs
    subst htab
    rw [suppress_one_sommaires_ts db n path cid tid dossier db' n'
          h0 h11 hlast hlen ht h3 hok hex] at hs
    simpa using (List.mem_filter.mp hs).2
  · intro hnone
    have h2 := (suppress_one_nomatch db n path cid tid dossier table
      h0 h11 hlast hlen ht h3 hnone).symm.trans hok
    injection h2 with h2
    rw [Prod.mk.injEq] at h2
    exact ⟨h2.1.symm, h2.2.symm⟩
  · exact suppress_one_nomatch db' n' path cid tid dossier table
      h0 h11 hlast hlen ht h3 ha

/-- C8 (witness): applying the sample reference to `dbArtLiens` deletes the
article row and its owned link row, keeps the foreign link row, and
re-applying the same reference is a no-op. -/
theorem c8_witness :
    (∀ x ∈ dbSupAfter.liens, lien_owned artId x = false) ∧
    suppress_one dbSupAfter 2 supPath = .ok (dbSupAfter, 2) :=
  ⟨(c8_deletion_cascade dbArtLiens 0 supPath "C1" artId "D1" Table.articles
      dbSupAfter 2 rfl rfl rfl rfl rfl rfl rfl).2.1 (Or.inl rfl) (by decide),
   (c8_deletion_cascade dbArtLiens 0 supPath "C1" artId "D1" Table.articles
      dbSupAfter 2 rfl rfl rfl rfl rfl rfl rfl).2.2.2.2.2⟩

/-- C10 (confirmed): the deletion processor removes a document row only when
the path-derived dossier, cid and id all equal the stored row's values, and
a reference whose id matches only rows stored under a different dossier or
cid is a complete no-op: the store is unchanged (so no cascade deletion),
the deleted counter is unchanged (nothing is reported or logged), and no
error is raised. -/
theorem c10_mismatch_noop :
    ∀ (db : DB) (n : Nat) (path : String) (cid tid dossier : String)
      (table : Table) (db' : DB) (n' : Nat),
      (split_slash path).get? 0 = some "legi" →
      (split_slash path).get? 11 = some cid →
      (split_slash path).getLast? = some tid →
      tid.length = 20 →
      get_table (split_slash path) = some table →
      (split_slash path).get? 3 = some dossier →
      ((suppress_one db n path = .ok (db', n') →
        ∀ r ∈ db.rows table, r ∉ db'.rows table →
          doc_match dossier cid tid r = true) ∧
       ((∀ r ∈ db.rows table, r.id = tid →
           (r.dossier ≠ dossier ∨ r.cid ≠ cid)) →
        suppress_one db n path = .ok (db, n))) := by
  intro db n path cid tid dossier table db' n' h0 h11 hlast hlen ht h3
  constructor
  · intro hok r hr hnot
    by_cases hpr : doc_match dossier cid tid r = true
    · exact hpr
    · have hf : doc_match dossier cid tid r = false := by
        revert hpr
        cases doc_match dossier cid tid r <;> simp
      exact absurd
        (by
          rw [suppress_one_rows db n path cid tid dossier table db' n'
                h0 h11 hlast hlen ht h3 hok]
          exact List.mem_filter.mpr ⟨hr, by rw [hf]; rfl⟩)
        hnot
  · intro hmm
    refine suppress_one_nomatch db n path cid tid dossier table
      h0 h11 hlast hlen ht h3 ?_
    intro r hr
    by_cases hid : r.id = tid
    · rcases hmm r hr hid with hd | hc
      · have h1 : (r.dossier == dossier) = false := beq_eq_false_iff_ne.mpr hd
        simp [doc_match, h1]
      · have h1 : (r.cid == cid) = false := beq_eq_false_iff_ne.mpr hc
        simp [doc_match, h1]
    · have h1 : (r.id == tid) = false := beq_eq_false_iff_ne.mpr hid
      simp [doc_match, h1]

/-- C10 (witness): the sample reference under dossier `D1` leaves the store
holding the article under dossier `D2` completely unchanged. -/
theorem c10_witness :
    suppress_one dbMoved 0 supPath = .ok (dbMoved, 0) :=
  (c10_mismatch_noop dbMoved 0 supPath "C1" artId "D1" Table.articles
    dbMoved 0 rfl rfl rfl rfl rfl rfl).2 (by decide)

/-- C4 (confirmed, spec-modelled transaction): archive application is
atomic at every step of `main`'s loop — either the store is completely
unchanged (skipped, ineligible, aborted, or failed archive: on any fatal
error the transaction discards everything and the watermark stays), or it
equals exactly the full effect of `process_archive` on the archive's entries
(all document rows and derived rows) together with the watermark advanced to
the archive's date; no partial application is ever observable. -/
theorem c4_atomicity :
    ∀ (s : RunState) (f : ArchiveFile),
      (main_step s f).db = s.db ∨
      ∃ g date res,
        parse_archive_name f.name = some (g, date) ∧
        process_archive s.db s.log f.entries = .ok res ∧
        (main_step s f).db = { res.1 with lastUpdate := some date } := by
  intro s f
  unfold main_step
  split
  · left; rfl
  · split
    · left; rfl
    · cases hp : parse_archive_name f.name with
      | none => left; rfl
      | some gd =>
        obtain ⟨g, date⟩ := gd
        simp only
        split
        · left; rfl
        · split
          · left; rfl
          · cases happ : apply_archive s.db s.log f.entries date with
            | error e => left; rfl
            | ok p =>
              obtain ⟨db', log'⟩ := p
              simp only
              right
              unfold apply_archive at happ
              cases hpa : process_archive s.db s.log f.entries with
              | error e => rw [hpa] at happ; exact Except.noConfusion happ
              | ok res =>
                obtain ⟨rdb, rlog, rcnt⟩ := res
                rw [hpa] at happ
                injection happ with happ
                rw [Prod.mk.injEq] at happ
                exact ⟨g, date, (rdb, rlog, rcnt), rfl, rfl, by rw [← happ.1]⟩

/-- C5 (confirmed): an archive is applied only if eligible — when no
watermark exists only a full-snapshot (`_global`) archive is applied, and
applying it sets the watermark to the date parsed from its filename; when a
watermark exists only delta archives whose date is strictly greater are
applied; and over a whole run (`main_loop`, which considers files in
ascending filename order) the watermark never decreases. -/
theorem c5_watermark_eligibility :
    (∀ (s : RunState) (f : ArchiveFile) (d : String),
       s.aborted = false →
       (main_step s f).lastAction = .applied d →
       ∃ g, parse_archive_name f.name = some (g, d) ∧
         (s.db.lastUpdate = none → g = true) ∧
         (∀ lu, s.db.lastUpdate = some lu → g = false ∧ lu < d) ∧
         (main_step s f).db.lastUpdate = some d) ∧
    (∀ (db : DB) (log : List String) (files : List ArchiveFile)
       (lu : String), db.lastUpdate = some lu →
       ∃ lu', (main_loop db log files).db.lastUpdate = some lu' ∧
         lu ≤ lu') := by
  constructor
  · intro s f d hab hact
    unfold main_step at hact ⊢
    rw [if_neg (by simp [hab])] at hact ⊢
    by_cases hfn : fnmatch_legi_tar f.name
    · rw [if_neg (by simp [hfn])] at hact ⊢
      rcases hp : parse_archive_name f.name with _ | ⟨g, date⟩
      · rw [hp] at hact
        simp at hact
      · simp only [hp] at hact ⊢
        by_cases hxor : xor s.db.lastUpdate.isSome (!g) = true
        · rw [if_pos hxor] at hact
          simp at hact
        · rw [if_neg hxor] at hact ⊢
          by_cases hst : (match s.db.lastUpdate with
              | some lu => decide (date ≤ lu)
              | none => false) = true
          · rw [if_pos hst] at hact
            simp at hact
          · rw [if_neg hst] at hact ⊢
            rcases happ : apply_archive s.db s.log f.entries date
              with e | ⟨db', log'⟩
            · rw [happ] at hact
              simp at hact
            · rw [happ] at hact
              have hd : date = d := by simpa using hact
              subst hd
              refine ⟨g, rfl, ?_, ?_, ?_⟩
              · intro hnone
                cases g with
                | true => rfl
                | false => exact absurd (by simp [hnone]) hxor
              · intro lu hlu
                constructor
                · cases g with
                  | false => rfl
                  | true => exact absurd (by simp [hlu]) hxor
                · refine lt_of_not_le fun hh => hst ?_
                  rw [hlu]
                  simp [hh]
              · show db'.lastUpdate = some date
                unfold apply_archive at happ
                cases hpa : process_archive s.db s.log f.entries with
                | error e => rw [hpa] at happ; exact Except.noConfusion happ
                | ok res =>
                  obtain ⟨rdb, rlog, rcnt⟩ := res
                  rw [hpa] at happ
                  injection happ with happ
                  rw [Prod.mk.injEq] at happ
                  rw [← happ.1]
    · rw [if_pos (by simp [hfn])] at hact
      simp at hact
  · intro db log files lu h
    unfold main_loop
    exact foldl_main_step_mono _ ⟨db, log, 0, false, .start⟩ lu h

/-- C5 (witness): the empty store accepts the full snapshot and sets the
watermark from its filename date; a store with a watermark never sees it
decrease over a run containing a later delta. -/
theorem c5_witness :
    (∃ g, parse_archive_name fileG.name = some (g, "20200101-000000") ∧
      (runState0.db.lastUpdate = none → g = true) ∧
      (∀ lu, runState0.db.lastUpdate = some lu →
        g = false ∧ lu < "20200101-000000") ∧
      (main_step runState0 fileG).db.lastUpdate =
        some "20200101-000000") ∧
    (∃ lu', (main_loop dbWm [] [fileD]).db.lastUpdate = some lu' ∧
      "20200101-000000" ≤ lu') :=
  ⟨c5_watermark_eligibility.1 runState0 fileG "20200101-000000" rfl rfl,
   c5_watermark_eligibility.2 dbWm [] [fileD] "20200101-000000" rfl⟩

end Legi
